import Mathlib

/-!
Verification development for the DedupFS coordination core.

The definitions below are a shallow embedding of the Python sources:
  dedupfs/jobs/service.py        (job coordinator: create, claim, heartbeat,
                                  finish, reset, cancel, stale-lease recovery)
  dedupfs/thumbs/service.py      (thumbnail queue admission)
  dedupfs/maintenance/service.py (WAL checkpoint scheduler)
  dedupfs/duplicates/service.py  (duplicate-group cursor codec)
  dedupfs/db/migrations.py       (migration data repair)

Modelling conventions:
  - the relational store is a list of rows; a session is explicit state
    passing, where an operation returns the committed store together with
    an Except result (an exception raised before any commit leaves the
    store unchanged, mirroring the rollback performed when the session
    context exits without commit);
  - datetimes are naturals (UTC seconds); the timezone coercion helper of
    the source is the identity in this model since all values are aware;
  - the float progress field is modelled as a rational;
  - SQL enum columns are inductive types (the sources write canonical
    lower-case values).
-/

/-! ## Job coordinator data model (dedupfs/db/models.py, dedupfs/jobs/service.py) -/

inductive JobKind where
  | scan
  | hash
  | delete
  | thumbnail
deriving DecidableEq, Repr

inductive JobStatus where
  | pending
  | running
  | completed
  | failed
  | cancelled
  | retryable
deriving DecidableEq, Repr

structure Job where
  id : String
  kind : JobKind
  status : JobStatus
  dryRun : Bool
  workerId : Option String
  workerHeartbeatAt : Option Nat
  leaseExpiresAt : Option Nat
  progress : Rat
  totalItems : Option Nat
  processedItems : Int
  errorCode : Option String
  errorMessage : Option String
  createdAt : Nat
  updatedAt : Nat
  startedAt : Option Nat
  finishedAt : Option Nat
deriving DecidableEq, Repr

structure JobSettings where
  jobLockTtlSeconds : Nat
  dryRun : Bool
  allowRealDelete : Bool
deriving DecidableEq, Repr

/-- Error taxonomy of jobs/service.py: JobConflictError, JobNotFoundError,
InvalidJobStateError, JobPolicyError, plus ValueError raised for blank
worker ids and invalid progress values. -/
inductive JobError where
  | conflict
  | notFound
  | invalidState
  | policy
  | valueError
deriving DecidableEq, Repr

/-- Python str.strip for the ASCII whitespace characters (worker ids and
similar inputs in this repository are ASCII). -/
def isPySpace (c : Char) : Bool :=
  c == ' ' || c == '\t' || c == '\n' || c == '\r' || c == '\x0b' || c == '\x0c'

def pyStripChars (l : List Char) : List Char :=
  ((l.dropWhile isPySpace).reverse.dropWhile isPySpace).reverse

def pyStrip (s : String) : String :=
  String.mk (pyStripChars s.data)

/-- ALLOWED_TRANSITIONS (jobs/service.py lines 39-46). -/
def allowedTransition : JobStatus → JobStatus → Bool
  | .pending, t => t == .running || t == .cancelled
  | .running, t => t == .completed || t == .failed || t == .cancelled || t == .retryable
  | .retryable, t => t == .pending || t == .cancelled || t == .failed
  | .completed, _ => false
  | .failed, _ => false
  | .cancelled, _ => false

/-- JobService._requires_scan_hash_mutex. -/
def requiresScanHashMutex (kind : JobKind) : Bool :=
  kind == .scan || kind == .hash

/-- Status is in the admission-blocking set pending, running, retryable. -/
def isActiveStatus (s : JobStatus) : Bool :=
  s == .pending || s == .running || s == .retryable

/-- The admission query of create_job: kind in (scan, hash) and status in
(pending, running, retryable). -/
def isScanHashActive (j : Job) : Bool :=
  requiresScanHashMutex j.kind && isActiveStatus j.status

/-- lease_expires_at is absent or not after now. -/
def leaseExpired (now : Nat) (lease : Option Nat) : Bool :=
  match lease with
  | none => true
  | some t => decide (t ≤ now)

/-- Selection predicate of recover_stale_jobs (jobs/service.py lines 321-328). -/
def staleScanHash (now : Nat) (j : Job) : Bool :=
  j.status == .running && requiresScanHashMutex j.kind && leaseExpired now j.leaseExpiresAt

/-- The per-row update of recover_stale_jobs (jobs/service.py lines 330-339). -/
def recoverStaleJob (now : Nat) (j : Job) : Job :=
  { j with
    status := .retryable
    errorCode := some "LEASE_EXPIRED"
    errorMessage := some "Lease expired and recovered by control plane"
    finishedAt := some now
    updatedAt := now
    workerId := none
    workerHeartbeatAt := none
    leaseExpiresAt := none }

/-- JobService.recover_stale_jobs applied to a whole store. -/
def recoverStaleJobs (now : Nat) (store : List Job) : List Job :=
  store.map fun j => if staleScanHash now j then recoverStaleJob now j else j

/-- JobService._enforce_job_policy: some error when the policy refuses the job. -/
def jobPolicyCheck (s : JobSettings) (kind : JobKind) (effectiveDryRun : Bool) :
    Option JobError :=
  if s.dryRun && !effectiveDryRun then some .policy
  else if kind == .delete && !effectiveDryRun && !s.allowRealDelete then some .policy
  else none

/-- The freshly persisted row of create_job: status pending, no worker
binding, no lease; created_at is the insertion instant. -/
def newPendingJob (newId : String) (kind : JobKind) (effectiveDryRun : Bool) (now : Nat) : Job :=
  { id := newId
    kind := kind
    status := .pending
    dryRun := effectiveDryRun
    workerId := none
    workerHeartbeatAt := none
    leaseExpiresAt := none
    progress := 0
    totalItems := none
    processedItems := 0
    errorCode := none
    errorMessage := none
    createdAt := now
    updatedAt := now
    startedAt := none
    finishedAt := none }

/-- JobService.create_job (jobs/service.py lines 80-117).  On the conflict
path the session exits without commit, so the flushed stale recovery is
rolled back and the store is returned unchanged; on success the recovery
and the insert commit together.  The IntegrityError fallback of the source
is unreachable in this single-session model because the admission check
has just observed the absence of an active row. -/
def createJob (s : JobSettings) (store : List Job) (newId : String) (kind : JobKind)
    (dryRun : Option Bool) (now : Nat) : List Job × Except JobError Job :=
  let effectiveDryRun := dryRun.getD s.dryRun
  match jobPolicyCheck s kind effectiveDryRun with
  | some e => (store, .error e)
  | none =>
    if requiresScanHashMutex kind then
      let recovered := recoverStaleJobs now store
      if recovered.any isScanHashActive then
        (store, .error .conflict)
      else
        let job := newPendingJob newId kind effectiveDryRun now
        (recovered ++ [job], .ok job)
    else
      let job := newPendingJob newId kind effectiveDryRun now
      (store ++ [job], .ok job)

/-- session.get(Job, job_id): primary-key lookup. -/
def findJob (store : List Job) (jobId : String) : Option Job :=
  store.find? fun j => j.id == jobId

/-- Committing an ORM mutation of the row with the given id. -/
def updateJob (store : List Job) (jobId : String) (f : Job → Job) : List Job :=
  store.map fun j => if j.id == jobId then f j else j

/-- Lexicographic (created_at ASC, id ASC) order used by the claim
statement and the migration repair; SQL compares the string primary key
bytewise, which agrees with the Lean string order on ASCII ids. -/
def jobOlder (a b : Job) : Bool :=
  decide (a.createdAt < b.createdAt) ||
    (a.createdAt == b.createdAt && decide (a.id < b.id))

/-- Scan keeping the least element so far of a strict comparator. -/
def selectByGo {α : Type} (lt : α → α → Bool) (best : α) : List α → α
  | [] => best
  | x :: xs => selectByGo lt (if lt x best then x else best) xs

/-- ORDER BY ... LIMIT 1: the least element of a strict comparator, none on
an empty result set. -/
def selectBy {α : Type} (lt : α → α → Bool) : List α → Option α
  | [] => none
  | x :: xs => some (selectByGo lt x xs)

/-- Candidate predicate of the claim statement: kind in (scan, hash) and
status = pending. -/
def isPendingScanHash (j : Job) : Bool :=
  requiresScanHashMutex j.kind && j.status == .pending

/-- The row update performed by the claim statement. -/
def claimJobUpdate (j : Job) (w : String) (now ttl : Nat) : Job :=
  { j with
    status := .running
    startedAt := some (j.startedAt.getD now)
    workerId := some w
    workerHeartbeatAt := some now
    leaseExpiresAt := some (now + ttl)
    updatedAt := now }

/-- JobService.claim_pending_scan_hash_job (jobs/service.py lines 148-199).
When no candidate exists the session rolls back, discarding the stale
recovery; when a row is claimed the transaction commits. -/
def claimPendingScanHashJob (s : JobSettings) (store : List Job) (workerId : String)
    (now : Nat) : List Job × Except JobError (Option Job) :=
  let w := pyStrip workerId
  if w == "" then (store, .error .valueError)
  else
    let recovered := recoverStaleJobs now store
    match selectBy jobOlder (recovered.filter isPendingScanHash) with
    | none => (store, .ok none)
    | some c =>
      let updated := claimJobUpdate c w now s.jobLockTtlSeconds
      (updateJob recovered c.id fun _ => updated, .ok (some updated))

/-- The retryable row written by the expired-lease branch of heartbeat
(jobs/service.py lines 220-232). -/
def heartbeatExpireJob (job : Job) (now : Nat) : Job :=
  { job with
    status := .retryable
    errorCode := some "LEASE_EXPIRED"
    errorMessage := some "Lease expired before heartbeat"
    finishedAt := some now
    updatedAt := now
    workerId := none
    workerHeartbeatAt := none
    leaseExpiresAt := none }

/-- The refreshed row written by the success branch of heartbeat
(jobs/service.py lines 236-247). -/
def heartbeatRefreshJob (job : Job) (w : String) (progress : Option Rat)
    (processedItems : Option Int) (now ttl : Nat) : Job :=
  { job with
    progress := progress.getD job.progress
    processedItems := processedItems.getD job.processedItems
    workerId := some w
    workerHeartbeatAt := some now
    leaseExpiresAt := some (now + ttl)
    updatedAt := now }

def progressInvalid : Option Rat → Bool
  | none => false
  | some p => decide (p < 0) || decide (1 < p)

def processedItemsInvalid : Option Int → Bool
  | none => false
  | some n => decide (n < 0)

/-- JobService.heartbeat (jobs/service.py lines 201-250).  The expired-lease
branch commits the retryable transition and then raises JobConflict, so it
is the one error path that also changes the store. -/
def heartbeat (s : JobSettings) (store : List Job) (jobId workerId : String)
    (progress : Option Rat) (processedItems : Option Int) (now : Nat) :
    List Job × Except JobError Job :=
  let w := pyStrip workerId
  if w == "" then (store, .error .valueError)
  else
    match findJob store jobId with
    | none => (store, .error .notFound)
    | some job =>
      if job.status != .running then (store, .error .invalidState)
      else if leaseExpired now job.leaseExpiresAt then
        if allowedTransition job.status .retryable then
          (updateJob store jobId fun _ => heartbeatExpireJob job now, .error .conflict)
        else (store, .error .invalidState)
      else if job.workerId.isSome && job.workerId != some w then
        (store, .error .conflict)
      else if progressInvalid progress then (store, .error .valueError)
      else if processedItemsInvalid processedItems then (store, .error .valueError)
      else
        let j := heartbeatRefreshJob job w progress processedItems now s.jobLockTtlSeconds
        (updateJob store jobId fun _ => j, .ok j)

/-- The terminal row written by finish_job (jobs/service.py lines 265-275). -/
def finishJobUpdate (job : Job) (success : Bool) (errorMessage : Option String)
    (now : Nat) : Job :=
  { job with
    status := if success then .completed else .failed
    progress := if success then 1 else job.progress
    errorMessage := errorMessage
    errorCode := if success then none else some "WORKER_FAILURE"
    finishedAt := some now
    workerHeartbeatAt := some now
    leaseExpiresAt := none
    updatedAt := now }

/-- JobService.finish_job (jobs/service.py lines 252-278). -/
def finishJob (store : List Job) (jobId workerId : String) (success : Bool)
    (errorMessage : Option String) (now : Nat) : List Job × Except JobError Job :=
  let w := pyStrip workerId
  if w == "" then (store, .error .valueError)
  else
    match findJob store jobId with
    | none => (store, .error .notFound)
    | some job =>
      if job.status != .running then (store, .error .invalidState)
      else if job.workerId != some w then (store, .error .conflict)
      else if allowedTransition job.status (if success then .completed else .failed) then
        let j := finishJobUpdate job success errorMessage now
        (updateJob store jobId fun _ => j, .ok j)
      else (store, .error .invalidState)

/-- The pending row written by reset_retryable_job (jobs/service.py lines 286-294). -/
def resetJobUpdate (job : Job) (now : Nat) : Job :=
  { job with
    status := .pending
    workerId := none
    workerHeartbeatAt := none
    leaseExpiresAt := none
    errorCode := none
    errorMessage := none
    finishedAt := none
    updatedAt := now }

/-- JobService.reset_retryable_job (jobs/service.py lines 280-297). -/
def resetRetryableJob (store : List Job) (jobId : String) (now : Nat) :
    List Job × Except JobError Job :=
  match findJob store jobId with
  | none => (store, .error .notFound)
  | some job =>
    if allowedTransition job.status .pending then
      let j := resetJobUpdate job now
      (updateJob store jobId fun _ => j, .ok j)
    else (store, .error .invalidState)

/-- The cancelled row written by cancel_job (jobs/service.py lines 306-312);
the error message is only overwritten by a truthy (non-empty) argument. -/
def cancelJobUpdate (job : Job) (errorMessage : Option String) (now : Nat) : Job :=
  { job with
    status := .cancelled
    finishedAt := some now
    updatedAt := now
    leaseExpiresAt := none
    errorMessage :=
      match errorMessage with
      | some m => if m == "" then job.errorMessage else some m
      | none => job.errorMessage }

/-- JobService.cancel_job (jobs/service.py lines 299-315). -/
def cancelJob (store : List Job) (jobId : String) (errorMessage : Option String)
    (now : Nat) : List Job × Except JobError Job :=
  match findJob store jobId with
  | none => (store, .error .notFound)
  | some job =>
    if allowedTransition job.status .cancelled then
      let j := cancelJobUpdate job errorMessage now
      (updateJob store jobId fun _ => j, .ok j)
    else (store, .error .invalidState)

/-! ## Coordinator operations as a step relation (for the lease invariant) -/

inductive CoordinatorOp where
  | create (newId : String) (kind : JobKind) (dryRun : Option Bool)
  | claim (workerId : String)
  | beat (jobId workerId : String) (progress : Option Rat) (processedItems : Option Int)
  | finish (jobId workerId : String) (success : Bool) (errorMessage : Option String)
  | reset (jobId : String)
  | cancel (jobId : String) (errorMessage : Option String)
  | recoverStale
deriving Repr

/-- The store produced by one coordinator operation (the committed state,
whatever the returned result). -/
def applyOp (s : JobSettings) (now : Nat) (op : CoordinatorOp) (store : List Job) :
    List Job :=
  match op with
  | .create newId kind dryRun => (createJob s store newId kind dryRun now).1
  | .claim workerId => (claimPendingScanHashJob s store workerId now).1
  | .beat jobId workerId progress processedItems =>
      (heartbeat s store jobId workerId progress processedItems now).1
  | .finish jobId workerId success errorMessage =>
      (finishJob store jobId workerId success errorMessage now).1
  | .reset jobId => (resetRetryableJob store jobId now).1
  | .cancel jobId errorMessage => (cancelJob store jobId errorMessage now).1
  | .recoverStale => recoverStaleJobs now store

/-- Lease-binding invariant as the spec states it: a running job carries a
worker and a lease, a non-running job carries neither. -/
def specLeaseInvB (j : Job) : Bool :=
  if j.status == .running then j.workerId.isSome && j.leaseExpiresAt.isSome
  else j.workerId.isNone && j.leaseExpiresAt.isNone

def specStoreLeaseInv (store : List Job) : Bool :=
  store.all specLeaseInvB

/-- Lease-binding invariant the code actually maintains: a running job
carries a worker and a lease; a non-running job carries no lease, but may
retain the worker id of the worker that finished or cancelled it. -/
def leaseInvB (j : Job) : Bool :=
  if j.status == .running then j.workerId.isSome && j.leaseExpiresAt.isSome
  else j.leaseExpiresAt.isNone

def storeLeaseInv (store : List Job) : Bool :=
  store.all leaseInvB

/-- A concrete running scan job with an expired lease (expired at 3),
used as a fixture for witnesses evaluated at time 5. -/
def expiredLeaseJob : Job :=
  { id := "j1", kind := .scan, status := .running, dryRun := true,
    workerId := some "w1", workerHeartbeatAt := some 2, leaseExpiresAt := some 3,
    progress := 0, totalItems := none, processedItems := 0, errorCode := none,
    errorMessage := none, createdAt := 1, updatedAt := 2, startedAt := some 2,
    finishedAt := none }

/-- A concrete running scan job with a live lease (until 9) and no bound
worker, used as a fixture for witnesses evaluated at time 5. -/
def unboundRunningJob : Job :=
  { id := "j1", kind := .scan, status := .running, dryRun := true,
    workerId := none, workerHeartbeatAt := none, leaseExpiresAt := some 9,
    progress := 0, totalItems := none, processedItems := 0, errorCode := none,
    errorMessage := none, createdAt := 1, updatedAt := 2, startedAt := some 2,
    finishedAt := none }

/-- Default job settings fixture: lease TTL 300 seconds, dry-run on. -/
def defaultJobSettings : JobSettings := ⟨300, true, false⟩

/-- A concrete retryable hash job fixture. -/
def retryableJob : Job :=
  { id := "j1", kind := .hash, status := .retryable, dryRun := true,
    workerId := none, workerHeartbeatAt := none, leaseExpiresAt := none,
    progress := 0, totalItems := none, processedItems := 0,
    errorCode := some "LEASE_EXPIRED", errorMessage := none, createdAt := 1,
    updatedAt := 2, startedAt := some 2, finishedAt := some 2 }

/-! ## Thumbnail queue data model (dedupfs/db/models.py, dedupfs/thumbs/service.py) -/

inductive ThumbnailStatus where
  | pending
  | running
  | ready
  | failed
deriving DecidableEq, Repr

inductive ThumbnailMediaType where
  | image
  | video
deriving DecidableEq, Repr

inductive ThumbnailFormat where
  | jpeg
  | webp
deriving DecidableEq, Repr

structure ThumbRow where
  id : Nat
  thumbKey : String
  fileId : Nat
  groupKey : Option String
  status : ThumbnailStatus
  mediaType : ThumbnailMediaType
  format : ThumbnailFormat
  maxDimension : Nat
  version : Nat
  sourceSizeBytes : Int
  sourceMtimeNs : Int
  outputRelpath : String
  width : Option Nat
  height : Option Nat
  bytesSize : Option Nat
  errorCode : Option String
  errorMessage : Option String
  errorCount : Nat
  retryAfter : Option Nat
  workerId : Option String
  workerHeartbeatAt : Option Nat
  leaseExpiresAt : Option Nat
  createdAt : Nat
  updatedAt : Nat
  startedAt : Option Nat
  finishedAt : Option Nat
deriving DecidableEq, Repr

/-- Error taxonomy of thumbs/service.py: ThumbnailNotFoundError,
ThumbnailPolicyError, ThumbnailQueueFullError, ThumbnailCleanupError. -/
inductive ThumbError where
  | notFound
  | policy
  | queueFull
  | cleanup
deriving DecidableEq, Repr

/-- retry_after is absent or not after now (thumbs/service.py lines 220-221). -/
def thumbRetryEligible (now : Nat) (r : ThumbRow) : Bool :=
  match r.retryAfter with
  | none => true
  | some t => decide (t ≤ now)

/-- The reset of a retry-eligible failed row back to pending
(thumbs/service.py lines 222-231). -/
def thumbResetRow (now : Nat) (r : ThumbRow) : ThumbRow :=
  { r with
    status := .pending
    errorCode := none
    errorMessage := none
    retryAfter := none
    workerId := none
    workerHeartbeatAt := none
    leaseExpiresAt := none
    startedAt := none
    finishedAt := none
    updatedAt := now }

/-- The COUNT(1) WHERE status IN (pending, running) subquery of the
conditional insert (thumbs/service.py lines 281-285). -/
def countPendingRunning (store : List ThumbRow) : Nat :=
  (store.filter fun r => r.status == .pending || r.status == .running).length

/-- The freshly queued row of request_thumbnail (thumbs/service.py
lines 236-248 and the conditional INSERT column list): status pending,
version 2, error_count 0, no worker binding, no timing fields. -/
def newThumbRow (newId : Nat) (thumbKey : String) (fileId : Nat) (groupKey : Option String)
    (mediaType : ThumbnailMediaType) (format : ThumbnailFormat) (maxDimension : Nat)
    (sourceSizeBytes sourceMtimeNs : Int) (outputRelpath : String) (now : Nat) : ThumbRow :=
  { id := newId
    thumbKey := thumbKey
    fileId := fileId
    groupKey := groupKey
    status := .pending
    mediaType := mediaType
    format := format
    maxDimension := maxDimension
    version := 2
    sourceSizeBytes := sourceSizeBytes
    sourceMtimeNs := sourceMtimeNs
    outputRelpath := outputRelpath
    width := none
    height := none
    bytesSize := none
    errorCode := none
    errorMessage := none
    errorCount := 0
    retryAfter := none
    workerId := none
    workerHeartbeatAt := none
    leaseExpiresAt := none
    createdAt := now
    updatedAt := now
    startedAt := none
    finishedAt := none }

/-- The store phase of ThumbnailService.request_thumbnail (thumbs/service.py
lines 217-321), entered after input validation, path checks and thumb_key
computation have produced the candidate row.  Lookup by thumb_key: a
retry-eligible failed row is reset to pending and committed; any other
existing row is returned unchanged; otherwise the conditional INSERT is
gated on count(status in (pending, running)) < queue_capacity, and a
gated-out insert rolls back and raises ThumbnailQueueFull.  The
IntegrityError fallback of the source handles a concurrent j producer and
is unreachable in this single-session model. -/
def requestThumbnailStore (store : List ThumbRow) (cand : ThumbRow) (now : Nat)
    (queueCapacity : Nat) : List ThumbRow × Except ThumbError ThumbRow :=
  match store.find? (fun r => r.thumbKey == cand.thumbKey) with
  | some existing =>
    if existing.status == .failed && thumbRetryEligible now existing then
      let r := thumbResetRow now existing
      (store.map fun x => if x.thumbKey == cand.thumbKey then r else x, .ok r)
    else (store, .ok existing)
  | none =>
    if countPendingRunning store < queueCapacity then
      (store ++ [cand], .ok cand)
    else (store, .error .queueFull)

/-- The store phase of ThumbnailService.prune_group_thumbnails
(thumbs/service.py lines 408-415): delete the ready and failed rows of the
group (the filesystem cleanup of output files is outside the store). -/
def pruneGroupThumbnailsStore (store : List ThumbRow) (groupKey : String) : List ThumbRow :=
  store.filter fun r =>
    !(r.groupKey == some groupKey && (r.status == .ready || r.status == .failed))

/-- A concrete pending thumbnail row fixture occupying the queue. -/
def pendingThumbRow : ThumbRow :=
  { id := 1, thumbKey := "aa", fileId := 1, groupKey := none, status := .pending,
    mediaType := .image, format := .jpeg, maxDimension := 256, version := 2,
    sourceSizeBytes := 100, sourceMtimeNs := 0, outputRelpath := "aa/aa/aa.jpg",
    width := none, height := none, bytesSize := none, errorCode := none,
    errorMessage := none, errorCount := 0, retryAfter := none, workerId := none,
    workerHeartbeatAt := none, leaseExpiresAt := none, createdAt := 1, updatedAt := 1,
    startedAt := none, finishedAt := none }

/-- A concrete failed thumbnail row fixture that is retry-eligible
(retry_after null). -/
def failedThumbRow : ThumbRow :=
  { id := 2, thumbKey := "bb", fileId := 2, groupKey := none, status := .failed,
    mediaType := .image, format := .jpeg, maxDimension := 256, version := 2,
    sourceSizeBytes := 100, sourceMtimeNs := 0, outputRelpath := "bb/bb/bb.jpg",
    width := none, height := none, bytesSize := none,
    errorCode := some "THUMB_IMAGE_DECODE_FAILED", errorMessage := some "decode failed",
    errorCount := 1, retryAfter := none, workerId := none,
    workerHeartbeatAt := none, leaseExpiresAt := none, createdAt := 1, updatedAt := 1,
    startedAt := none, finishedAt := none }

/-- A candidate row whose thumb_key matches the failed fixture row. -/
def retryCandThumbRow : ThumbRow :=
  newThumbRow 3 "bb" 2 none .image .jpeg 256 100 0 "bb/bb/bb.jpg" 5

/-- A candidate row with a fresh thumb_key. -/
def freshCandThumbRow : ThumbRow :=
  newThumbRow 3 "cc" 3 none .image .jpeg 256 100 0 "cc/cc/cc.jpg" 5

/-- Whether the request_thumbnail lookup hits a retry-eligible failed row
(the one path of request_thumbnail that re-admits work without consulting
the capacity gate). -/
def thumbResetPathTaken (store : List ThumbRow) (cand : ThumbRow) (now : Nat) : Bool :=
  match store.find? (fun r => r.thumbKey == cand.thumbKey) with
  | some r => r.status == .failed && thumbRetryEligible now r
  | none => false

/-! ## WAL maintenance scheduler model (dedupfs/maintenance/service.py) -/

inductive WalCheckpointMode where
  | passive
  | restart
  | truncate
deriving DecidableEq, Repr

inductive WalMaintenanceStatus where
  | pending
  | running
  | completed
  | failed
  | retryable
deriving DecidableEq, Repr

structure WalRow where
  id : Nat
  requestedMode : WalCheckpointMode
  status : WalMaintenanceStatus
  requestedBy : String
  reason : Option String
  executeAfter : Nat
  retryCount : Nat
  retryAfter : Option Nat
  workerId : Option String
  workerHeartbeatAt : Option Nat
  leaseExpiresAt : Option Nat
  checkpointBusy : Option Bool
  checkpointLogFrames : Option Nat
  checkpointedFrames : Option Nat
  errorCode : Option String
  errorMessage : Option String
  createdAt : Nat
  updatedAt : Nat
  startedAt : Option Nat
  finishedAt : Option Nat
deriving DecidableEq, Repr

/-- Settings of the WAL scheduler; the configured default mode is stored as
an already validated enum value (core/config.py normalizes and checks the
string at load time). -/
structure WalSettings where
  walCheckpointDefaultMode : WalCheckpointMode
  walCheckpointMinIntervalSeconds : Nat
  walCheckpointAllowTruncate : Bool
deriving DecidableEq, Repr

/-- Error taxonomy of maintenance/service.py: WalMaintenancePolicyError,
WalMaintenanceConflictError, WalMaintenanceNotFoundError, plus ValueError
for an invalid mode string. -/
inductive WalError where
  | policy
  | conflict
  | notFound
  | valueError
deriving DecidableEq, Repr

/-- Python str.lower restricted to ASCII (all mode strings are ASCII). -/
def asciiLowerChar (c : Char) : Char :=
  if 65 ≤ c.toNat ∧ c.toNat ≤ 90 then Char.ofNat (c.toNat + 32) else c

def asciiLowerList (l : List Char) : List Char :=
  l.map asciiLowerChar

/-- WalCheckpointMode(token): enum construction from a string value. -/
def parseWalMode (token : List Char) : Option WalCheckpointMode :=
  if token = "passive".data then some .passive
  else if token = "restart".data then some .restart
  else if token = "truncate".data then some .truncate
  else none

/-- WalMaintenanceService._normalize_mode (maintenance/service.py
lines 42-50). -/
def normalizeWalMode (s : WalSettings) (raw : Option String) :
    Except WalError WalCheckpointMode :=
  match raw with
  | none => .ok s.walCheckpointDefaultMode
  | some r =>
    match parseWalMode (asciiLowerList (pyStripChars r.data)) with
    | some m => .ok m
    | none => .error .valueError

/-- Status in (pending, running, retryable). -/
def walActive (r : WalRow) : Bool :=
  r.status == .pending || r.status == .running || r.status == .retryable

/-- ORDER BY created_at DESC, id DESC: a strictly-precedes b in that order. -/
def walMoreRecent (a b : WalRow) : Bool :=
  decide (b.createdAt < a.createdAt) ||
    (a.createdAt == b.createdAt && decide (b.id < a.id))

/-- Option-valued greater-than with null as the least value (SQLite sorts
NULL last under DESC). -/
def optNatGt : Option Nat → Option Nat → Bool
  | some a, some b => decide (b < a)
  | some _, none => true
  | none, _ => false

/-- ORDER BY finished_at DESC, id DESC for the rate-limit read. -/
def walCompletedMoreRecent (a b : WalRow) : Bool :=
  optNatGt a.finishedAt b.finishedAt ||
    (a.finishedAt == b.finishedAt && decide (b.id < a.id))

/-- (requested_by or "api").strip()[:64] or "api". -/
def normalizeRequestedBy (raw : Option String) : String :=
  let base := match raw with
    | none => "api"
    | some r => if r == "" then "api" else r
  let t := String.mk ((pyStripChars base.data).take 64)
  if t == "" then "api" else t

/-- The pending row inserted by request_checkpoint (maintenance/service.py
lines 116-126). -/
def newWalRow (newId : Nat) (mode : WalCheckpointMode) (reason : Option String)
    (requestedBy : Option String) (now : Nat) : WalRow :=
  { id := newId
    requestedMode := mode
    status := .pending
    requestedBy := normalizeRequestedBy requestedBy
    reason := reason
    executeAfter := now
    retryCount := 0
    retryAfter := some now
    workerId := none
    workerHeartbeatAt := none
    leaseExpiresAt := none
    checkpointBusy := none
    checkpointLogFrames := none
    checkpointedFrames := none
    errorCode := none
    errorMessage := none
    createdAt := now
    updatedAt := now
    startedAt := none
    finishedAt := none }

/-- WalMaintenanceService.request_checkpoint (maintenance/service.py
lines 76-130): normalize the mode, enforce the truncate policy, coalesce
onto the most recent active row, otherwise rate-limit against the most
recently completed row unless forced, otherwise insert a pending row. -/
def requestCheckpoint (s : WalSettings) (store : List WalRow) (mode : Option String)
    (reason : Option String) (requestedBy : Option String) (force : Bool)
    (now newId : Nat) : List WalRow × Except WalError WalRow :=
  match normalizeWalMode s mode with
  | .error e => (store, .error e)
  | .ok m =>
    if m == .truncate && !s.walCheckpointAllowTruncate then (store, .error .policy)
    else
      match selectBy walMoreRecent (store.filter walActive) with
      | some active => (store, .ok active)
      | none =>
        let rateLimited :=
          if force then false
          else
            match selectBy walCompletedMoreRecent
                (store.filter fun r => r.status == .completed) with
            | some latest =>
              match latest.finishedAt with
              | some t => decide (now < t + s.walCheckpointMinIntervalSeconds)
              | none => false
            | none => false
        if rateLimited then (store, .error .conflict)
        else
          let row := newWalRow newId m reason requestedBy now
          (store ++ [row], .ok row)

/-- An older pending WAL row fixture. -/
def walRowA : WalRow :=
  { id := 1, requestedMode := .restart, status := .pending, requestedBy := "api",
    reason := none, executeAfter := 1, retryCount := 0, retryAfter := some 1,
    workerId := none, workerHeartbeatAt := none, leaseExpiresAt := none,
    checkpointBusy := none, checkpointLogFrames := none, checkpointedFrames := none,
    errorCode := none, errorMessage := none, createdAt := 1, updatedAt := 1,
    startedAt := none, finishedAt := none }

/-- A more recent retryable WAL row fixture. -/
def walRowB : WalRow :=
  { id := 2, requestedMode := .passive, status := .retryable, requestedBy := "api",
    reason := none, executeAfter := 2, retryCount := 1, retryAfter := some 3,
    workerId := none, workerHeartbeatAt := none, leaseExpiresAt := none,
    checkpointBusy := none, checkpointLogFrames := none, checkpointedFrames := none,
    errorCode := some "WAL_BUSY", errorMessage := none, createdAt := 2, updatedAt := 2,
    startedAt := none, finishedAt := none }

/-! ## Migration data repair model (dedupfs/db/migrations.py) -/

/-- SQL trim with the default character set (spaces only). -/
def sqlTrim (l : List Char) : List Char :=
  ((l.dropWhile (· == ' ')).reverse.dropWhile (· == ' ')).reverse

/-- WHERE lower(status) = running AND lower(kind) IN (scan, hash); the
store holds canonical enum values, so lower() is the identity here. -/
def runningScanHash (j : Job) : Bool :=
  j.status == .running && requiresScanHashMutex j.kind

/-- WHERE lower(kind) IN (scan, hash) AND lower(status) IN (pending, running). -/
def pendingOrRunningScanHash (j : Job) : Bool :=
  requiresScanHashMutex j.kind && (j.status == .pending || j.status == .running)

/-- The CASE ordering key of the second repair: running 0, pending 1, else 2. -/
def statusRank : JobStatus → Nat
  | .running => 0
  | .pending => 1
  | _ => 2

/-- ROW_NUMBER ordering of the second repair: status rank, then
(created_at ASC, id ASC). -/
def jobActiveOlder (a b : Job) : Bool :=
  decide (statusRank a.status < statusRank b.status) ||
    (statusRank a.status == statusRank b.status && jobOlder a b)

def mutexRecoveryMessage : String :=
  "Reclassified during migration to satisfy single running scan/hash invariant"

/-- The UPDATE of _resolve_duplicate_running_scan_hash_jobs
(db/migrations.py lines 274-286) applied to a demoted row. -/
def mutexDemote (now : Nat) (j : Job) : Job :=
  { j with
    status := .retryable
    workerId := none
    workerHeartbeatAt := none
    leaseExpiresAt := none
    errorCode := some "MIGRATION_MUTEX_RECOVERY"
    errorMessage :=
      match j.errorMessage with
      | none => some mutexRecoveryMessage
      | some msg => if sqlTrim msg.data == [] then some mutexRecoveryMessage else some msg
    finishedAt := some (j.finishedAt.getD now)
    updatedAt := now }

def activeRecoveryMessage : String :=
  "Reclassified during migration to satisfy single pending/running scan/hash invariant"

/-- The UPDATE of _resolve_duplicate_pending_or_running_scan_hash_jobs
(db/migrations.py lines 318-334) applied to a demoted row. -/
def activeDemote (now : Nat) (j : Job) : Job :=
  { j with
    status := .retryable
    workerId := none
    workerHeartbeatAt := none
    leaseExpiresAt := none
    errorCode :=
      match j.errorCode with
      | none => some "MIGRATION_ACTIVE_RECOVERY"
      | some c => if sqlTrim c.data == [] then some "MIGRATION_ACTIVE_RECOVERY" else some c
    errorMessage :=
      match j.errorMessage with
      | none => some activeRecoveryMessage
      | some msg => if sqlTrim msg.data == [] then some activeRecoveryMessage else some msg
    finishedAt := some (j.finishedAt.getD now)
    updatedAt := now }

/-- _resolve_duplicate_running_scan_hash_jobs (db/migrations.py
lines 260-294): rank the running scan/hash rows by (created_at ASC, id ASC)
and demote every row but the first; now models CURRENT_TIMESTAMP. -/
def resolveDuplicateRunningScanHashJobs (now : Nat) (store : List Job) : List Job :=
  match selectBy jobOlder (store.filter runningScanHash) with
  | none => store
  | some keep =>
    store.map fun j =>
      if runningScanHash j && j.id != keep.id then mutexDemote now j else j

/-- _resolve_duplicate_pending_or_running_scan_hash_jobs (db/migrations.py
lines 297-342): rank the pending and running scan/hash rows preferring
running, then oldest, and demote every row but the first. -/
def resolveDuplicatePendingOrRunningScanHashJobs (now : Nat) (store : List Job) :
    List Job :=
  match selectBy jobActiveOlder (store.filter pendingOrRunningScanHash) with
  | none => store
  | some keep =>
    store.map fun j =>
      if pendingOrRunningScanHash j && j.id != keep.id then activeDemote now j else j

/-- The row effect of _migration_0009_scan_hash_admission_mutex
(db/migrations.py lines 392-401): the two repairs in order.  The other
steps of that migration (index maintenance and enum lower-casing) do not
change any row of this enum-typed model. -/
def migration0009RepairJobs (now : Nat) (store : List Job) : List Job :=
  resolveDuplicatePendingOrRunningScanHashJobs now
    (resolveDuplicateRunningScanHashJobs now store)

/-- An older running scan job fixture (id a, created at 1). -/
def runJobA : Job :=
  { id := "a", kind := .scan, status := .running, dryRun := true,
    workerId := some "w1", workerHeartbeatAt := some 2, leaseExpiresAt := some 9,
    progress := 0, totalItems := none, processedItems := 0, errorCode := none,
    errorMessage := none, createdAt := 1, updatedAt := 2, startedAt := some 2,
    finishedAt := none }

/-- A newer running hash job fixture (id b, created at 2). -/
def runJobB : Job :=
  { id := "b", kind := .hash, status := .running, dryRun := true,
    workerId := some "w2", workerHeartbeatAt := some 3, leaseExpiresAt := some 9,
    progress := 0, totalItems := none, processedItems := 0, errorCode := none,
    errorMessage := none, createdAt := 2, updatedAt := 3, startedAt := some 3,
    finishedAt := none }

/-! ## Duplicate-group cursor codec (dedupfs/duplicates/service.py)

The codec calls into the Python standard library; those calls are modelled
as executable Lean functions with these documented simplifications, none
of which affects the claims below:
  - base64.urlsafe_b64decode runs in the lax CPython mode: characters
    after the first padding byte are ignored, characters outside both
    base64 alphabets are discarded, and a dangling single sextet is an
    error;
  - bytes.decode("utf-8") is modelled for ASCII payloads (the encoder only
    ever emits ASCII);
  - json.loads is modelled for a flat object of scalar members (strings
    without escapes, integers, booleans, null), which covers every payload
    the encoder emits; nested values, floats and escape sequences are
    rejected where CPython would accept them, and each such cursor fails
    decoding either way (the scalar coercions below reject non-scalars);
  - int(str) is modelled for optionally signed decimal literals.
-/

inductive HashAlgorithm where
  | blake3
  | sha256
deriving DecidableEq, Repr

def hashAlgorithmValue : HashAlgorithm → String
  | .blake3 => "blake3"
  | .sha256 => "sha256"

/-- HashAlgorithm(token): enum construction from a string value. -/
def parseHashAlgorithm (token : List Char) : Option HashAlgorithm :=
  if token = "blake3".data then some .blake3
  else if token = "sha256".data then some .sha256
  else none

/-- DuplicateService._expected_hash_hex_length: raises for unsupported
algorithms; both enum members map to 64 (32-byte digests). -/
def expectedHashHexLength : HashAlgorithm → Nat
  | .blake3 => 64
  | .sha256 => 64

/-- The _GroupCursor dataclass (duplicates/service.py lines 25-30). -/
structure GroupCursor where
  fileCount : Int
  totalSizeBytes : Int
  hashAlgorithm : HashAlgorithm
  contentHashHex : List Char
deriving DecidableEq, Repr

/-! ### base64 (urlsafe alphabet) -/

def base64Char (v : Nat) : Char :=
  if v < 26 then Char.ofNat (65 + v)
  else if v < 52 then Char.ofNat (97 + (v - 26))
  else if v < 62 then Char.ofNat (48 + (v - 52))
  else if v = 62 then '-'
  else '_'

def base64CharValue (c : Char) : Option Nat :=
  if 65 ≤ c.toNat ∧ c.toNat ≤ 90 then some (c.toNat - 65)
  else if 97 ≤ c.toNat ∧ c.toNat ≤ 122 then some (c.toNat - 97 + 26)
  else if 48 ≤ c.toNat ∧ c.toNat ≤ 57 then some (c.toNat - 48 + 52)
  else if c = '-' ∨ c = '+' then some 62
  else if c = '_' ∨ c = '/' then some 63
  else none

def bytesToSextets : List Nat → List Nat
  | b1 :: b2 :: b3 :: rest =>
    b1 / 4 :: (b1 % 4 * 16 + b2 / 16) :: (b2 % 16 * 4 + b3 / 64) :: b3 % 64 ::
      bytesToSextets rest
  | [b1, b2] => [b1 / 4, b1 % 4 * 16 + b2 / 16, b2 % 16 * 4]
  | [b1] => [b1 / 4, b1 % 4 * 16]
  | [] => []

def b64Pad (n : Nat) : List Char :=
  List.replicate ((3 - n % 3) % 3) '='

/-- base64.urlsafe_b64encode: sextet characters plus '=' padding. -/
def b64EncodeBytes (bytes : List Nat) : List Char :=
  (bytesToSextets bytes).map base64Char ++ b64Pad bytes.length

/-- .rstrip("=") applied to the encoded cursor. -/
def stripTrailingEq (l : List Char) : List Char :=
  (l.reverse.dropWhile (· == '=')).reverse

def sextetsToBytes : List Nat → List Nat
  | c1 :: c2 :: c3 :: c4 :: rest =>
    (c1 * 4 + c2 / 16) :: (c2 % 16 * 16 + c3 / 4) :: (c3 % 4 * 64 + c4) ::
      sextetsToBytes rest
  | [c1, c2, c3] => [c1 * 4 + c2 / 16, c2 % 16 * 16 + c3 / 4]
  | [c1, c2] => [c1 * 4 + c2 / 16]
  | [_] => []
  | [] => []

/-- base64.urlsafe_b64decode in lax mode (see the section comment). -/
def b64DecodeLoose (s : List Char) : Option (List Nat) :=
  let data := (s.takeWhile (· != '=')).filterMap base64CharValue
  if data.length % 4 == 1 then none else some (sextetsToBytes data)

/-- bytes.decode("utf-8") for ASCII payloads. -/
def asciiDecodeBytes (bytes : List Nat) : Option (List Char) :=
  if bytes.all (fun b => decide (b < 128)) then some (bytes.map Char.ofNat)
  else none

/-! ### json (flat objects of scalar members) -/

inductive JsonScalar where
  | str (s : List Char)
  | int (n : Int)
  | bool (b : Bool)
  | null
deriving DecidableEq, Repr

def lcurl : Char := Char.ofNat 123

def rcurl : Char := Char.ofNat 125

def isJsonWs (c : Char) : Bool :=
  c == ' ' || c == '\t' || c == '\n' || c == '\r'

def skipWs (l : List Char) : List Char :=
  l.dropWhile isJsonWs

def isDigitChar (c : Char) : Bool :=
  decide (48 ≤ c.toNat) && decide (c.toNat ≤ 57)

def digitVal (c : Char) : Nat := c.toNat - 48

def digitChar (n : Nat) : Char := Char.ofNat (48 + n)

/-- Body of a JSON string after the opening quote, up to the closing
quote; escape sequences are not modelled (see the section comment). -/
def parseStringBody : List Char → Option (List Char × List Char)
  | [] => none
  | c :: rest =>
    if c = '"' then some ([], rest)
    else if c = '\\' then none
    else
      match parseStringBody rest with
      | some (s, r) => some (c :: s, r)
      | none => none

def parseDigitsFrom (acc : Nat) : List Char → Nat × List Char
  | [] => (acc, [])
  | c :: rest =>
    if isDigitChar c then parseDigitsFrom (acc * 10 + digitVal c) rest
    else (acc, c :: rest)

/-- JSON natural literal: zero, or a nonzero leading digit and a greedy
digit run (a leading zero followed by more digits parses as zero and the
enclosing object parse then fails, matching json.loads). -/
def parseJsonNat : List Char → Option (Nat × List Char)
  | [] => none
  | c :: rest =>
    if c = '0' then some (0, rest)
    else if isDigitChar c then some (parseDigitsFrom (digitVal c) rest)
    else none

def parseJsonInt : List Char → Option (Int × List Char)
  | [] => none
  | c :: rest =>
    if c = '-' then
      match parseJsonNat rest with
      | some (n, r) => some (-(n : Int), r)
      | none => none
    else
      match parseJsonNat (c :: rest) with
      | some (n, r) => some ((n : Int), r)
      | none => none

def parseScalar (l : List Char) : Option (JsonScalar × List Char) :=
  match l with
  | [] => none
  | c :: rest =>
    if c = '"' then
      match parseStringBody rest with
      | some (s, r) => some (.str s, r)
      | none => none
    else if l.take 4 = "true".data then some (.bool true, l.drop 4)
    else if l.take 5 = "false".data then some (.bool false, l.drop 5)
    else if l.take 4 = "null".data then some (.null, l.drop 4)
    else
      match parseJsonInt l with
      | some (n, r) => some (.int n, r)
      | none => none

/-- One key: value member of an object. -/
def parseMember (l : List Char) : Option ((List Char × JsonScalar) × List Char) :=
  match skipWs l with
  | [] => none
  | c :: rest =>
    if c = '"' then
      match parseStringBody rest with
      | some (key, r1) =>
        match skipWs r1 with
        | c2 :: r2 =>
          if c2 = ':' then
            match parseScalar (skipWs r2) with
            | some (v, r3) => some ((key, v), r3)
            | none => none
          else none
        | [] => none
      | none => none
    else none

/-- The members of an object after the opening brace, consuming the
closing brace; fuelled to keep the recursion structural. -/
def parseMembers : Nat → List Char → Option (List (List Char × JsonScalar) × List Char)
  | 0, _ => none
  | fuel + 1, l =>
    match parseMember l with
    | some (kv, rest) =>
      match skipWs rest with
      | c :: r2 =>
        if c = ',' then
          match parseMembers fuel r2 with
          | some (kvs, r3) => some (kv :: kvs, r3)
          | none => none
        else if c = rcurl then some ([kv], r2)
        else none
      | [] => none
    | none => none

/-- json.loads for the cursor payload: a single flat object spanning the
whole input (a non-object top level is reported as a parse failure; the
decoder turns it into the same ValueError that the subsequent key lookups
would raise in CPython). -/
def parseCursorPayload (l : List Char) : Option (List (List Char × JsonScalar)) :=
  match skipWs l with
  | [] => none
  | c :: rest =>
    if c = lcurl then
      match skipWs rest with
      | [] => none
      | c2 :: r2 =>
        if c2 = rcurl then (if skipWs r2 = [] then some [] else none)
        else
          match parseMembers (rest.length + 1) rest with
          | some (kvs, r3) => if skipWs r3 = [] then some kvs else none
          | none => none
    else none

/-- Python dict lookup with json.loads duplicate-key semantics: the last
occurrence of a key wins. -/
def lookupLast (fields : List (List Char × JsonScalar)) (key : List Char) :
    Option JsonScalar :=
  (fields.reverse.find? fun kv => kv.1 == key).map Prod.snd

/-! ### scalar coercions -/

def digitsValue (l : List Char) : Nat :=
  l.foldl (fun a c => a * 10 + digitVal c) 0

/-- int(str) on optionally signed decimal literals. -/
def pyIntOfChars (s : List Char) : Option Int :=
  match pyStripChars s with
  | '-' :: ds =>
    if ds ≠ [] ∧ ds.all isDigitChar then some (-(digitsValue ds : Int)) else none
  | '+' :: ds =>
    if ds ≠ [] ∧ ds.all isDigitChar then some ((digitsValue ds : Int)) else none
  | ds =>
    if ds ≠ [] ∧ ds.all isDigitChar then some ((digitsValue ds : Int)) else none

/-- Decimal digits, most significant first; fuelled to keep the recursion
structural (any fuel above the value is enough). -/
def natDigitsAux : Nat → Nat → List Char
  | 0, _ => []
  | fuel + 1, n =>
    if n < 10 then [digitChar n]
    else natDigitsAux fuel (n / 10) ++ [digitChar (n % 10)]

def natDigits (n : Nat) : List Char := natDigitsAux (n + 1) n

/-- repr of a Python int, as json.dumps prints it. -/
def intDigits (n : Int) : List Char :=
  if n < 0 then '-' :: natDigits (-n).toNat else natDigits n.toNat

/-- int(x) on a decoded JSON scalar. -/
def pyInt : JsonScalar → Option Int
  | .int n => some n
  | .bool b => some (if b then 1 else 0)
  | .str s => pyIntOfChars s
  | .null => none

/-- str(x) on a decoded JSON scalar. -/
def pyStr : JsonScalar → List Char
  | .str s => s
  | .int n => intDigits n
  | .bool b => if b then "True".data else "False".data
  | .null => "None".data

def isHexDigitChar (c : Char) : Bool :=
  (decide (48 ≤ c.toNat) && decide (c.toNat ≤ 57)) ||
    (decide (97 ≤ c.toNat) && decide (c.toNat ≤ 102)) ||
    (decide (65 ≤ c.toNat) && decide (c.toNat ≤ 70))

/-- bytes.fromhex succeeds: spaces between digit pairs are ignored, the
digit count is even, and every remaining character is a hex digit. -/
def pyFromHexOk (s : List Char) : Bool :=
  let t := s.filter fun c => !(c == ' ')
  t.length % 2 == 0 && t.all isHexDigitChar

/-! ### the codec itself -/

def jstr (s : List Char) : List Char := '"' :: s ++ ['"']

/-- json.dumps(payload, separators=(",", ":"), sort_keys=True) for the
cursor payload of _encode_group_cursor (duplicates/service.py lines 45-51);
the four keys are already in sorted order. -/
def jsonDumpGroupCursor (g : GroupCursor) : List Char :=
  [lcurl] ++ jstr "content_hash_hex".data ++ [':'] ++ jstr g.contentHashHex ++ [','] ++
    jstr "file_count".data ++ [':'] ++ intDigits g.fileCount ++ [','] ++
    jstr "hash_algorithm".data ++ [':'] ++
    jstr (hashAlgorithmValue g.hashAlgorithm).data ++ [','] ++
    jstr "total_size_bytes".data ++ [':'] ++ intDigits g.totalSizeBytes ++ [rcurl]

/-- DuplicateService._encode_group_cursor (duplicates/service.py
lines 44-52): urlsafe base64 of the canonical JSON payload with the
padding stripped. -/
def encodeGroupCursor (g : GroupCursor) : List Char :=
  stripTrailingEq (b64EncodeBytes ((jsonDumpGroupCursor g).map Char.toNat))

/-- DuplicateService._decode_group_cursor (duplicates/service.py
lines 54-91); none is the single ValueError of the source.  Steps: strip,
reject empty, re-pad to a multiple of four, .encode("ascii"), base64
decode, utf-8 decode, JSON parse, key lookups, int() and str() coercions,
enum construction on the lowered algorithm, then the bounds: file_count
at least 2, total_size_bytes at least 1, lowered hex of the expected
length, even length, and bytes.fromhex validity. -/
def decodeGroupCursor (cursor : List Char) : Option GroupCursor :=
  let token := pyStripChars cursor
  if token = [] then none
  else if token.any (fun c => decide (128 ≤ c.toNat)) then none
  else
    match b64DecodeLoose (token ++ List.replicate ((4 - token.length % 4) % 4) '=') with
    | none => none
    | some bytes =>
      match asciiDecodeBytes bytes with
      | none => none
      | some chars =>
        match parseCursorPayload chars with
        | none => none
        | some fields =>
          match lookupLast fields "file_count".data,
              lookupLast fields "total_size_bytes".data,
              lookupLast fields "hash_algorithm".data,
              lookupLast fields "content_hash_hex".data with
          | some fcV, some tsV, some algV, some hexV =>
            match pyInt fcV, pyInt tsV with
            | some fc, some ts =>
              match parseHashAlgorithm (asciiLowerList (pyStr algV)) with
              | none => none
              | some alg =>
                let hex := asciiLowerList (pyStr hexV)
                if fc < 2 ∨ ts < 1 then none
                else if hex.length ≠ expectedHashHexLength alg then none
                else if hex.length % 2 ≠ 0 then none
                else if pyFromHexOk hex = false then none
                else some ⟨fc, ts, alg, hex⟩
            | _, _ => none
          | _, _, _, _ => none

/-- The member text of a canonical flat JSON object after the opening
brace: key text, colon, value text, separated by commas and closed by the
closing brace. -/
def memberChain : List (List Char × List Char) → List Char
  | [] => [rcurl]
  | [(k, vc)] => jstr k ++ [':'] ++ vc ++ [rcurl]
  | (k, vc) :: rest => jstr k ++ [':'] ++ vc ++ [','] ++ memberChain rest

/-! ## Theorems -/

/-! ## C1, C3, C10: coordinator theorems -/

/-- C1: for every create_job call with kind scan or hash, stale-lease
recovery runs first; if any scan/hash job is then in pending, running or
retryable the call raises JobConflict and inserts no row, otherwise a new
row is persisted with status pending, and the resulting store holds
exactly one active scan/hash job. -/
theorem createJob_scanHash_admission
    (s : JobSettings) (store : List Job) (newId : String) (kind : JobKind)
    (dryRun : Option Bool) (now : Nat)
    (hkind : requiresScanHashMutex kind = true)
    (hpol : jobPolicyCheck s kind (dryRun.getD s.dryRun) = none) :
    ((recoverStaleJobs now store).any isScanHashActive = true →
      createJob s store newId kind dryRun now = (store, .error .conflict)) ∧
    ((recoverStaleJobs now store).any isScanHashActive = false →
      createJob s store newId kind dryRun now =
        (recoverStaleJobs now store ++ [newPendingJob newId kind (dryRun.getD s.dryRun) now],
          .ok (newPendingJob newId kind (dryRun.getD s.dryRun) now)) ∧
      (newPendingJob newId kind (dryRun.getD s.dryRun) now).status = .pending ∧
      ((recoverStaleJobs now store ++
          [newPendingJob newId kind (dryRun.getD s.dryRun) now]).filter
            isScanHashActive).length = 1) := by
  constructor
  · intro hact
    simp [createJob, hpol, hkind, hact]
  · intro hact
    refine ⟨by simp [createJob, hpol, hkind, hact], rfl, ?_⟩
    rw [List.filter_append]
    have h1 : (recoverStaleJobs now store).filter isScanHashActive = [] := by
      rw [List.filter_eq_nil_iff]
      intro a ha
      rw [List.any_eq_false] at hact
      simp [hact a ha]
    have h2 : isScanHashActive (newPendingJob newId kind (dryRun.getD s.dryRun) now) = true := by
      simp [isScanHashActive, newPendingJob, isActiveStatus, hkind]
    simp [h1, h2]

/-- C1 witness: a hash job created on a store holding one stale running
scan job conflicts; on the empty store it is persisted pending. -/
theorem createJob_scanHash_admission_witness :
    (requiresScanHashMutex .hash = true) ∧
    (jobPolicyCheck ⟨300, true, false⟩ .hash ((none : Option Bool).getD true) = none) ∧
    ((recoverStaleJobs 5 ([] : List Job)).any isScanHashActive = false →
      createJob ⟨300, true, false⟩ [] "j1" .hash none 5 =
        (recoverStaleJobs 5 [] ++ [newPendingJob "j1" .hash ((none : Option Bool).getD true) 5],
          .ok (newPendingJob "j1" .hash ((none : Option Bool).getD true) 5)) ∧
      (newPendingJob "j1" .hash ((none : Option Bool).getD true) 5).status = .pending ∧
      ((recoverStaleJobs 5 [] ++
          [newPendingJob "j1" .hash ((none : Option Bool).getD true) 5]).filter
            isScanHashActive).length = 1) :=
  ⟨by decide, by decide,
    (createJob_scanHash_admission ⟨300, true, false⟩ [] "j1" .hash none 5
      (by decide) (by decide)).2⟩

/-- C3: heartbeat on a running job whose lease is absent or expired writes
status retryable and error_code LEASE_EXPIRED, clears the worker binding
and the lease, commits that row, and raises JobConflict. -/
theorem heartbeat_expired_lease
    (s : JobSettings) (store : List Job) (jobId workerId : String)
    (progress : Option Rat) (processedItems : Option Int) (now : Nat) (job : Job)
    (hw : pyStrip workerId ≠ "")
    (hfind : findJob store jobId = some job)
    (hrun : job.status = .running)
    (hexp : leaseExpired now job.leaseExpiresAt = true) :
    heartbeat s store jobId workerId progress processedItems now =
      (updateJob store jobId fun _ => heartbeatExpireJob job now, .error .conflict) ∧
    (heartbeatExpireJob job now).status = .retryable ∧
    (heartbeatExpireJob job now).errorCode = some "LEASE_EXPIRED" ∧
    (heartbeatExpireJob job now).workerId = none ∧
    (heartbeatExpireJob job now).workerHeartbeatAt = none ∧
    (heartbeatExpireJob job now).leaseExpiresAt = none := by
  refine ⟨?_, rfl, rfl, rfl, rfl, rfl⟩
  have hw2 : (pyStrip workerId == "") = false := by
    simpa using hw
  simp [heartbeat, hw2, hfind, hrun, hexp, allowedTransition]

/-- C3 witness: a running job with a lease that expired at 3, heartbeat at
time 5 demotes it and reports the conflict. -/
theorem heartbeat_expired_lease_witness :
    heartbeat defaultJobSettings [expiredLeaseJob] "j1" "w1" none none 5 =
      (updateJob [expiredLeaseJob] "j1" fun _ => heartbeatExpireJob expiredLeaseJob 5,
        .error .conflict) :=
  (heartbeat_expired_lease defaultJobSettings [expiredLeaseJob] "j1" "w1" none none 5
    expiredLeaseJob (by decide) (by decide) (by decide) (by decide)).1

/-- C10: heartbeat on a running job with a live lease and no bound worker
accepts any non-blank worker id without JobConflict: it binds the
(normalized) worker id, refreshes the heartbeat time and the lease, and
returns the updated snapshot. -/
theorem heartbeat_binds_unbound_worker
    (s : JobSettings) (store : List Job) (jobId workerId : String) (now t : Nat) (job : Job)
    (hw : pyStrip workerId ≠ "")
    (hfind : findJob store jobId = some job)
    (hrun : job.status = .running)
    (hlease : job.leaseExpiresAt = some t)
    (hnow : now < t)
    (hworker : job.workerId = none) :
    heartbeat s store jobId workerId none none now =
      (updateJob store jobId fun _ =>
          heartbeatRefreshJob job (pyStrip workerId) none none now s.jobLockTtlSeconds,
        .ok (heartbeatRefreshJob job (pyStrip workerId) none none now s.jobLockTtlSeconds)) ∧
    (heartbeatRefreshJob job (pyStrip workerId) none none now s.jobLockTtlSeconds).workerId
        = some (pyStrip workerId) ∧
    (heartbeatRefreshJob job (pyStrip workerId) none none now
        s.jobLockTtlSeconds).workerHeartbeatAt = some now ∧
    (heartbeatRefreshJob job (pyStrip workerId) none none now
        s.jobLockTtlSeconds).leaseExpiresAt = some (now + s.jobLockTtlSeconds) ∧
    (heartbeatRefreshJob job (pyStrip workerId) none none now s.jobLockTtlSeconds).status
        = .running := by
  refine ⟨?_, rfl, rfl, rfl, by simp [heartbeatRefreshJob, hrun]⟩
  have hw2 : (pyStrip workerId == "") = false := by
    simpa using hw
  have hexp : leaseExpired now job.leaseExpiresAt = false := by
    simp [leaseExpired, hlease]
    omega
  simp [heartbeat, hw2, hfind, hrun, hexp, hworker, progressInvalid, processedItemsInvalid]

/-- C10 witness: a running job with worker_id null and a lease expiring at
9 accepts the heartbeat of worker w2 at time 5. -/
theorem heartbeat_binds_unbound_worker_witness :
    (heartbeat defaultJobSettings [unboundRunningJob] "j1" "w2" none none 5).2 =
      .ok (heartbeatRefreshJob unboundRunningJob (pyStrip "w2") none none 5 300) := by
  rw [(heartbeat_binds_unbound_worker defaultJobSettings [unboundRunningJob] "j1" "w2" 5 9
    unboundRunningJob (by decide) (by decide) (by decide) (by decide) (by decide)
    (by decide)).1]
  rfl

/-! ## C5: cancel_job legal states -/

/-- C5 counterexample: the claim says cancel_job on a retryable job raises
InvalidJobState; on the code (ALLOWED_TRANSITIONS permits retryable to
cancelled) the call succeeds and marks the retryable job cancelled. -/
theorem cancelJob_retryable_cex :
    retryableJob.status = .retryable ∧
    (cancelJob [retryableJob] "j1" none 5).2 = .ok (cancelJobUpdate retryableJob none 5) ∧
    (cancelJobUpdate retryableJob none 5).status = .cancelled :=
  ⟨rfl, rfl, rfl⟩

/-- C5 amended: cancel_job succeeds (status cancelled, finished_at set,
lease cleared) exactly from pending, running or retryable; from a terminal
status (completed, failed, cancelled) it raises InvalidJobState and leaves
the store unchanged. -/
theorem cancelJob_legal_states
    (store : List Job) (jobId : String) (em : Option String) (now : Nat) (job : Job)
    (hfind : findJob store jobId = some job) :
    ((job.status = .pending ∨ job.status = .running ∨ job.status = .retryable) →
      cancelJob store jobId em now =
        (updateJob store jobId fun _ => cancelJobUpdate job em now,
          .ok (cancelJobUpdate job em now)) ∧
      (cancelJobUpdate job em now).status = .cancelled ∧
      (cancelJobUpdate job em now).finishedAt = some now ∧
      (cancelJobUpdate job em now).leaseExpiresAt = none) ∧
    ((job.status = .completed ∨ job.status = .failed ∨ job.status = .cancelled) →
      cancelJob store jobId em now = (store, .error .invalidState)) := by
  constructor
  · intro hs
    have hall : allowedTransition job.status .cancelled = true := by
      rcases hs with h1 | h1 | h1 <;> rw [h1] <;> decide
    exact ⟨by simp [cancelJob, hfind, hall], rfl, rfl, rfl⟩
  · intro hs
    have hall : allowedTransition job.status .cancelled = false := by
      rcases hs with h1 | h1 | h1 <;> rw [h1] <;> decide
    simp [cancelJob, hfind, hall]

/-- C5 amended witness: cancelling a retryable job succeeds, cancelling an
already cancelled job raises InvalidJobState. -/
theorem cancelJob_legal_states_witness :
    (cancelJob [retryableJob] "j1" none 5).2 = .ok (cancelJobUpdate retryableJob none 5) ∧
    cancelJob [cancelJobUpdate retryableJob none 5] "j1" none 6 =
      ([cancelJobUpdate retryableJob none 5], .error .invalidState) := by
  constructor
  · exact ((cancelJob_legal_states [retryableJob] "j1" none 5 retryableJob
      (by decide)).1 (by decide)).1 ▸ rfl
  · exact (cancelJob_legal_states [cancelJobUpdate retryableJob none 5] "j1" none 6
      (cancelJobUpdate retryableJob none 5) (by decide)).2 (by decide)

/-! ## C4: lease binding invariant -/

/-- C4 counterexample: starting from a store satisfying the claimed
invariant (one running job with worker and lease), finish_job leaves the
completed job with a non-null worker_id, so the claimed invariant fails
after the operation. -/
theorem coordinator_lease_binding_cex :
    specStoreLeaseInv [expiredLeaseJob] = true ∧
    specStoreLeaseInv
        (applyOp defaultJobSettings 5 (.finish "j1" "w1" true none) [expiredLeaseJob])
      = false :=
  ⟨rfl, rfl⟩

/-- Every row of a store satisfying the maintained lease invariant does. -/
theorem storeLeaseInv_mem (store : List Job) (h : storeLeaseInv store = true) :
    ∀ j ∈ store, leaseInvB j = true := by
  simpa [storeLeaseInv, List.all_eq_true] using h

/-- Mapping a row transformer that preserves the maintained lease
invariant preserves it on the whole store. -/
theorem storeLeaseInv_map (store : List Job) (f : Job → Job)
    (hf : ∀ j ∈ store, leaseInvB j = true → leaseInvB (f j) = true)
    (h : storeLeaseInv store = true) : storeLeaseInv (store.map f) = true := by
  simp only [storeLeaseInv, List.all_eq_true] at h ⊢
  intro x hx
  rcases List.mem_map.mp hx with ⟨j, hj, rfl⟩
  exact hf j hj (h j hj)

/-- Replacing one row by a row satisfying the maintained lease invariant
preserves it. -/
theorem storeLeaseInv_update (store : List Job) (jobId : String) (j : Job)
    (hj : leaseInvB j = true) (h : storeLeaseInv store = true) :
    storeLeaseInv (updateJob store jobId fun _ => j) = true := by
  apply storeLeaseInv_map _ _ _ h
  intro x _ hx
  by_cases hc : (x.id == jobId) = true
  · simp [hc, hj]
  · simp only [Bool.not_eq_true] at hc
    simp [hc, hx]

/-- Stale-lease recovery preserves the maintained lease invariant. -/
theorem storeLeaseInv_recover (now : Nat) (store : List Job)
    (h : storeLeaseInv store = true) :
    storeLeaseInv (recoverStaleJobs now store) = true := by
  apply storeLeaseInv_map _ _ _ h
  intro j _ hj
  by_cases hs2 : staleScanHash now j = true
  · simp [hs2, recoverStaleJob, leaseInvB]
  · simp only [Bool.not_eq_true] at hs2
    simp [hs2, hj]

/-- C4 amended: every coordinator operation preserves the lease binding
invariant the code maintains: a running job has a worker_id and a
lease_expires_at, and a non-running job has lease_expires_at null (the
worker_id of a finished or cancelled job may remain recorded). -/
theorem coordinator_lease_binding_preserved
    (s : JobSettings) (now : Nat) (op : CoordinatorOp) (store : List Job)
    (h : storeLeaseInv store = true) :
    storeLeaseInv (applyOp s now op store) = true := by
  cases op with
  | create newId kind dryRun =>
    simp only [applyOp, createJob]
    cases hp : jobPolicyCheck s kind (dryRun.getD s.dryRun) with
    | some e => exact h
    | none =>
      by_cases hk : requiresScanHashMutex kind = true
      · simp only [hk, if_true]
        by_cases ha : (recoverStaleJobs now store).any isScanHashActive = true
        · simp [ha, h]
        · simp only [Bool.not_eq_true] at ha
          simp only [ha, Bool.false_eq_true, if_false]
          rw [show ∀ (a b : List Job), storeLeaseInv (a ++ b) = (storeLeaseInv a && storeLeaseInv b)
            from fun a b => List.all_append]
          rw [storeLeaseInv_recover now store h]
          simp [storeLeaseInv, leaseInvB, newPendingJob]
      · simp only [Bool.not_eq_true] at hk
        simp only [hk, Bool.false_eq_true, if_false]
        rw [show ∀ (a b : List Job), storeLeaseInv (a ++ b) = (storeLeaseInv a && storeLeaseInv b)
          from fun a b => List.all_append]
        rw [h]
        simp [storeLeaseInv, leaseInvB, newPendingJob]
  | claim workerId =>
    simp only [applyOp, claimPendingScanHashJob]
    by_cases hw : (pyStrip workerId == "") = true
    · simp [hw, h]
    · simp only [Bool.not_eq_true] at hw
      simp only [hw, Bool.false_eq_true, if_false]
      cases hsel : selectBy jobOlder ((recoverStaleJobs now store).filter isPendingScanHash) with
      | none => exact h
      | some c =>
        exact storeLeaseInv_update _ _ _ (by simp [claimJobUpdate, leaseInvB])
          (storeLeaseInv_recover now store h)
  | beat jobId workerId progress processedItems =>
    simp only [applyOp, heartbeat]
    by_cases hw : (pyStrip workerId == "") = true
    · simp [hw, h]
    · simp only [Bool.not_eq_true] at hw
      simp only [hw, Bool.false_eq_true, if_false]
      cases hf : findJob store jobId with
      | none => exact h
      | some job =>
        by_cases hrun : (job.status != .running) = true
        · simp [hrun, h]
        · have hrun2 : job.status = .running := by
            simpa using hrun
          simp only [hrun, Bool.false_eq_true, if_false]
          by_cases hexp : leaseExpired now job.leaseExpiresAt = true
          · simp only [hexp, if_true, hrun2, allowedTransition]
            exact storeLeaseInv_update _ _ _ (by simp [heartbeatExpireJob, leaseInvB]) h
          · simp only [Bool.not_eq_true] at hexp
            simp only [hexp, Bool.false_eq_true, if_false]
            by_cases hb : (job.workerId.isSome && job.workerId != some (pyStrip workerId)) = true
            · simp [hb, h]
            · simp only [Bool.not_eq_true] at hb
              simp only [hb, Bool.false_eq_true, if_false]
              by_cases hprog : progressInvalid progress = true
              · simp [hprog, h]
              · simp only [Bool.not_eq_true] at hprog
                simp only [hprog, Bool.false_eq_true, if_false]
                by_cases hproc : processedItemsInvalid processedItems = true
                · simp [hproc, h]
                · simp only [Bool.not_eq_true] at hproc
                  simp only [hproc, Bool.false_eq_true, if_false]
                  exact storeLeaseInv_update _ _ _
                    (by simp [heartbeatRefreshJob, leaseInvB, hrun2]) h
  | finish jobId workerId success errorMessage =>
    simp only [applyOp, finishJob]
    by_cases hw : (pyStrip workerId == "") = true
    · simp [hw, h]
    · simp only [Bool.not_eq_true] at hw
      simp only [hw, Bool.false_eq_true, if_false]
      cases hf : findJob store jobId with
      | none => exact h
      | some job =>
        by_cases hrun : (job.status != .running) = true
        · simp [hrun, h]
        · simp only [hrun, Bool.false_eq_true, if_false]
          by_cases hb : (job.workerId != some (pyStrip workerId)) = true
          · simp [hb, h]
          · simp only [Bool.not_eq_true] at hb
            simp only [hb, Bool.false_eq_true, if_false]
            by_cases ht : allowedTransition job.status (if success then .completed else .failed) = true
            · simp only [ht, if_true]
              apply storeLeaseInv_update _ _ _ _ h
              cases success <;> simp [finishJobUpdate, leaseInvB]
            · simp only [Bool.not_eq_true] at ht
              simp [ht, h]
  | reset jobId =>
    simp only [applyOp, resetRetryableJob]
    cases hf : findJob store jobId with
    | none => exact h
    | some job =>
      by_cases ht : allowedTransition job.status .pending = true
      · simp only [ht, if_true]
        exact storeLeaseInv_update _ _ _ (by simp [resetJobUpdate, leaseInvB]) h
      · simp only [Bool.not_eq_true] at ht
        simp [ht, h]
  | cancel jobId errorMessage =>
    simp only [applyOp, cancelJob]
    cases hf : findJob store jobId with
    | none => exact h
    | some job =>
      by_cases ht : allowedTransition job.status .cancelled = true
      · simp only [ht, if_true]
        exact storeLeaseInv_update _ _ _ (by simp [cancelJobUpdate, leaseInvB]) h
      · simp only [Bool.not_eq_true] at ht
        simp [ht, h]
  | recoverStale => exact storeLeaseInv_recover now store h

/-- C4 amended witness: the invariant holds on a one-running-job store and
is preserved by the finish_job operation there. -/
theorem coordinator_lease_binding_preserved_witness :
    storeLeaseInv [expiredLeaseJob] = true ∧
    storeLeaseInv
        (applyOp defaultJobSettings 5 (.finish "j1" "w1" true none) [expiredLeaseJob])
      = true :=
  ⟨by decide,
    coordinator_lease_binding_preserved defaultJobSettings 5
      (.finish "j1" "w1" true none) [expiredLeaseJob] (by decide)⟩

/-! ## C2, C6: thumbnail queue theorems -/

/-- C2 counterexample: with queue_capacity 1, a store at capacity (one
pending row) plus a retry-eligible failed row; request_thumbnail for the
failed key takes the reset path and leaves two pending rows, exceeding the
capacity the claim says every operation preserves. -/
theorem thumbnail_queue_capacity_cex :
    countPendingRunning [pendingThumbRow, failedThumbRow] ≤ 1 ∧
    1 < countPendingRunning
        (requestThumbnailStore [pendingThumbRow, failedThumbRow] retryCandThumbRow 5 1).1 :=
  ⟨by decide, by decide⟩

/-- C2 amended: whenever request_thumbnail does not take the failed-row
reset path, it preserves count(status in (pending, running)) <=
queue_capacity, and prune_group_thumbnails always preserves it; the
failed-row reset path alone can exceed the bound by re-admitting a failed
row without a capacity check. -/
theorem thumbnail_queue_capacity_amended
    (store : List ThumbRow) (cand : ThumbRow) (now queueCapacity : Nat)
    (hinv : countPendingRunning store ≤ queueCapacity)
    (hpath : thumbResetPathTaken store cand now = false) :
    countPendingRunning (requestThumbnailStore store cand now queueCapacity).1
        ≤ queueCapacity ∧
    ∀ g, countPendingRunning (pruneGroupThumbnailsStore store g) ≤ queueCapacity := by
  constructor
  · cases hf : store.find? (fun r => r.thumbKey == cand.thumbKey) with
    | some r =>
      simp only [thumbResetPathTaken, hf] at hpath
      simp only [requestThumbnailStore, hf, hpath, Bool.false_eq_true, if_false]
      exact hinv
    | none =>
      by_cases hc : countPendingRunning store < queueCapacity
      · simp only [requestThumbnailStore, hf, hc, if_true]
        have : countPendingRunning (store ++ [cand]) ≤ countPendingRunning store + 1 := by
          simp only [countPendingRunning, List.filter_append, List.length_append]
          have : (List.filter (fun r => r.status == .pending || r.status == .running)
              [cand]).length ≤ 1 := by
            cases hcand : (cand.status == .pending || cand.status == .running) <;>
              simp [List.filter, hcand]
          omega
        omega
      · simpa [requestThumbnailStore, hf, hc] using hinv
  · intro g
    calc countPendingRunning (pruneGroupThumbnailsStore store g)
        ≤ countPendingRunning store := by
          apply List.Sublist.length_le
          exact List.Sublist.filter _ (List.filter_sublist store)
      _ ≤ queueCapacity := hinv

/-- C2 amended witness: a fresh-key request on a store at capacity 2 with
one pending row stays within capacity, as does pruning. -/
theorem thumbnail_queue_capacity_amended_witness :
    countPendingRunning
        (requestThumbnailStore [pendingThumbRow] freshCandThumbRow 5 2).1 ≤ 2 ∧
    ∀ g, countPendingRunning (pruneGroupThumbnailsStore [pendingThumbRow] g) ≤ 2 :=
  thumbnail_queue_capacity_amended [pendingThumbRow] freshCandThumbRow 5 2
    (by decide) (by decide)

/-- C6: request_thumbnail preserves thumb_key uniqueness across all three
store paths, and when a row with the requested key already exists and is
not a retry-eligible failed row, the call returns that row's snapshot
unchanged and inserts nothing, so every requester observes the same row
id. -/
theorem thumbnail_key_unique_idempotent
    (store : List ThumbRow) (cand : ThumbRow) (now queueCapacity : Nat)
    (hnodup : (store.map ThumbRow.thumbKey).Nodup) :
    ((requestThumbnailStore store cand now queueCapacity).1.map ThumbRow.thumbKey).Nodup ∧
    (∀ r, store.find? (fun x => x.thumbKey == cand.thumbKey) = some r →
      (r.status == .failed && thumbRetryEligible now r) = false →
      requestThumbnailStore store cand now queueCapacity = (store, .ok r)) := by
  constructor
  · cases hf : store.find? (fun r => r.thumbKey == cand.thumbKey) with
    | some r =>
      have hkey0 := List.find?_some hf
      have hkey : (r.thumbKey == cand.thumbKey) = true := hkey0
      by_cases hc : (r.status == .failed && thumbRetryEligible now r) = true
      · have hmap : (store.map fun x =>
            if x.thumbKey == cand.thumbKey then thumbResetRow now r else x).map
              ThumbRow.thumbKey = store.map ThumbRow.thumbKey := by
          rw [List.map_map]
          apply List.map_congr_left
          intro x _
          simp only [Function.comp_apply]
          by_cases hx : x.thumbKey = cand.thumbKey
          · simp [hx, thumbResetRow, beq_iff_eq.mp hkey]
          · simp [hx]
        simp only [requestThumbnailStore, hf, hc, if_true]
        rw [hmap]
        exact hnodup
      · simp only [Bool.not_eq_true] at hc
        simp only [requestThumbnailStore, hf, hc, Bool.false_eq_true, if_false]
        exact hnodup
    | none =>
      by_cases hcap : countPendingRunning store < queueCapacity
      · simp only [requestThumbnailStore, hf, hcap, if_true, List.map_append,
          List.map_cons, List.map_nil]
        rw [List.nodup_append]
        refine ⟨hnodup, List.nodup_singleton _, ?_⟩
        intro a ha
        rcases List.mem_map.mp ha with ⟨x, hx, rfl⟩
        have := List.find?_eq_none.mp hf x hx
        simp only [Bool.not_eq_true, beq_eq_false_iff_ne, ne_eq] at this
        simp [this]
      · simpa [requestThumbnailStore, hf, hcap] using hnodup
  · intro r hfind hc
    simp only [requestThumbnailStore, hfind, hc, Bool.false_eq_true, if_false]

/-- C6 witness: on a one-row store the second request with the same key
returns the stored pending row unchanged, and key uniqueness persists. -/
theorem thumbnail_key_unique_idempotent_witness :
    ((requestThumbnailStore [pendingThumbRow]
        (newThumbRow 9 "aa" 1 none .image .jpeg 256 100 0 "aa/aa/aa.jpg" 5) 5 2).1.map
          ThumbRow.thumbKey).Nodup :=
  (thumbnail_key_unique_idempotent [pendingThumbRow]
    (newThumbRow 9 "aa" 1 none .image .jpeg 256 100 0 "aa/aa/aa.jpg" 5) 5 2 (by decide)).1

/-! ## C8: WAL checkpoint coalescing -/

/-- The scan of selectBy returns its seed or a list element. -/
theorem selectByGo_cases {α : Type} (lt : α → α → Bool) (best : α) (l : List α) :
    selectByGo lt best l = best ∨ selectByGo lt best l ∈ l := by
  induction l generalizing best with
  | nil => exact Or.inl rfl
  | cons x xs ih =>
    simp only [selectByGo]
    by_cases h : lt x best = true
    · rw [if_pos h]
      rcases ih x with h2 | h2
      · exact Or.inr (by rw [h2]; exact List.mem_cons_self x xs)
      · exact Or.inr (List.mem_cons_of_mem x h2)
    · rw [if_neg h]
      rcases ih best with h2 | h2
      · exact Or.inl h2
      · exact Or.inr (List.mem_cons_of_mem x h2)

/-- selectBy returns a member of the list. -/
theorem selectBy_mem {α : Type} (lt : α → α → Bool) (l : List α) (k : α)
    (h : selectBy lt l = some k) : k ∈ l := by
  cases l with
  | nil => cases h
  | cons x xs =>
    simp only [selectBy, Option.some.injEq] at h
    subst h
    rcases selectByGo_cases lt x xs with h2 | h2
    · rw [h2]; exact List.mem_cons_self x xs
    · exact List.mem_cons_of_mem x h2

/-- The scan of selectBy yields an element no worse than the seed and not
beaten by any list element, for an irreflexive transitive comparator. -/
theorem selectByGo_min {α : Type} (lt : α → α → Bool)
    (hirr : ∀ a, lt a a = false)
    (htrans : ∀ a b c, lt a b = true → lt b c = true → lt a c = true)
    (best : α) (l : List α) :
    (lt (selectByGo lt best l) best = true ∨ selectByGo lt best l = best) ∧
    ∀ x ∈ l, lt x (selectByGo lt best l) = false := by
  induction l generalizing best with
  | nil => exact ⟨Or.inr rfl, by simp⟩
  | cons y ys ih =>
    simp only [selectByGo]
    by_cases h : lt y best = true
    · rw [if_pos h]
      obtain ⟨hle, hmin⟩ := ih y
      refine ⟨?_, ?_⟩
      · left
        rcases hle with h2 | h2
        · exact htrans _ _ _ h2 h
        · rw [h2]; exact h
      · intro x hx
        rcases List.mem_cons.mp hx with rfl | hx2
        · rcases hle with h2 | h2
          · by_contra hc
            rw [Bool.not_eq_false] at hc
            have h3 := htrans _ _ _ hc h2
            rw [hirr] at h3
            exact Bool.false_ne_true h3
          · rw [h2]
            exact hirr x
        · exact hmin x hx2
    · rw [if_neg h]
      obtain ⟨hle, hmin⟩ := ih best
      refine ⟨hle, ?_⟩
      intro x hx
      rcases List.mem_cons.mp hx with rfl | hx2
      · rcases hle with h2 | h2
        · by_contra hc
          rw [Bool.not_eq_false] at hc
          exact h (htrans _ _ _ hc h2)
        · rw [h2]
          exact Bool.eq_false_iff.mpr h
      · exact hmin x hx2

/-- No list element beats the row selectBy returns. -/
theorem selectBy_min {α : Type} (lt : α → α → Bool)
    (hirr : ∀ a, lt a a = false)
    (htrans : ∀ a b c, lt a b = true → lt b c = true → lt a c = true)
    (l : List α) (k : α) (h : selectBy lt l = some k) :
    ∀ x ∈ l, lt x k = false := by
  cases l with
  | nil => cases h
  | cons x xs =>
    simp only [selectBy, Option.some.injEq] at h
    subst h
    intro z hz
    rcases List.mem_cons.mp hz with rfl | hz2
    · obtain ⟨hle, _⟩ := selectByGo_min lt hirr htrans z xs
      rcases hle with h2 | h2
      · by_contra hc
        rw [Bool.not_eq_false] at hc
        have h3 := htrans _ _ _ hc h2
        rw [hirr] at h3
        exact Bool.false_ne_true h3
      · rw [h2]; exact hirr z
    · exact (selectByGo_min lt hirr htrans x xs).2 z hz2

/-- walMoreRecent is irreflexive. -/
theorem walMoreRecent_irrefl (a : WalRow) : walMoreRecent a a = false := by
  simp [walMoreRecent]

/-- walMoreRecent is transitive. -/
theorem walMoreRecent_trans (a b c : WalRow)
    (h1 : walMoreRecent a b = true) (h2 : walMoreRecent b c = true) :
    walMoreRecent a c = true := by
  simp only [walMoreRecent, Bool.or_eq_true, Bool.and_eq_true, decide_eq_true_eq,
    beq_iff_eq] at h1 h2 ⊢
  omega

/-- walMoreRecent totally orders rows with distinct ids. -/
theorem walMoreRecent_total (a b : WalRow) (h : a.id ≠ b.id) :
    walMoreRecent a b = true ∨ walMoreRecent b a = true := by
  simp only [walMoreRecent, Bool.or_eq_true, Bool.and_eq_true, decide_eq_true_eq,
    beq_iff_eq]
  omega

/-- C8: when at least one WAL maintenance row is active (pending, running
or retryable), request_checkpoint, after mode normalization and the
truncate-policy check, returns the snapshot of the most recent active row
(created_at DESC, id DESC) and inserts nothing, for every mode and every
force flag. -/
theorem requestCheckpoint_coalesces
    (s : WalSettings) (store : List WalRow) (mode : Option String)
    (reason : Option String) (requestedBy : Option String) (force : Bool)
    (now newId : Nat) (m : WalCheckpointMode) (active : WalRow)
    (hmode : normalizeWalMode s mode = .ok m)
    (hpol : (m == .truncate && !s.walCheckpointAllowTruncate) = false)
    (hact : selectBy walMoreRecent (store.filter walActive) = some active) :
    requestCheckpoint s store mode reason requestedBy force now newId =
      (store, .ok active) ∧
    active ∈ store ∧ walActive active = true ∧
    (∀ r ∈ store, walActive r = true → r.id ≠ active.id →
      walMoreRecent active r = true) := by
  have hmem := selectBy_mem walMoreRecent _ _ hact
  have hmem2 := List.mem_filter.mp hmem
  refine ⟨?_, hmem2.1, hmem2.2, ?_⟩
  · simp [requestCheckpoint, hmode, hpol, hact]
  · intro r hr hra hne
    have hmin := selectBy_min walMoreRecent walMoreRecent_irrefl walMoreRecent_trans
      _ _ hact r (List.mem_filter.mpr ⟨hr, hra⟩)
    rcases walMoreRecent_total active r (fun hx => hne hx.symm) with h1 | h1
    · exact h1
    · rw [hmin] at h1
      exact absurd h1 Bool.false_ne_true

/-- C8 witness: with an older pending row and a newer retryable row, every
request (here a forced restart request) returns the newer row and inserts
nothing. -/
theorem requestCheckpoint_coalesces_witness :
    requestCheckpoint ⟨.passive, 900, false⟩ [walRowA, walRowB] (some "restart")
        none none true 50 7 =
      ([walRowA, walRowB], .ok walRowB) :=
  (requestCheckpoint_coalesces ⟨.passive, 900, false⟩ [walRowA, walRowB]
    (some "restart") none none true 50 7 .restart walRowB
    (by rfl) (by decide) (by decide)).1

/-! ## C9: migration mutex repair -/

/-- jobOlder is irreflexive. -/
theorem jobOlder_irrefl (a : Job) : jobOlder a a = false := by
  simp [jobOlder]

/-- jobOlder is transitive. -/
theorem jobOlder_trans (a b c : Job)
    (h1 : jobOlder a b = true) (h2 : jobOlder b c = true) : jobOlder a c = true := by
  simp only [jobOlder, Bool.or_eq_true, Bool.and_eq_true, decide_eq_true_eq,
    beq_iff_eq] at h1 h2 ⊢
  rcases h1 with h1 | ⟨h1e, h1s⟩
  · rcases h2 with h2 | ⟨h2e, h2s⟩
    · exact Or.inl (by omega)
    · exact Or.inl (by omega)
  · rcases h2 with h2 | ⟨h2e, h2s⟩
    · exact Or.inl (by omega)
    · exact Or.inr ⟨by omega, lt_trans h1s h2s⟩

/-- jobOlder totally orders jobs with distinct ids. -/
theorem jobOlder_total (a b : Job) (h : a.id ≠ b.id) :
    jobOlder a b = true ∨ jobOlder b a = true := by
  simp only [jobOlder, Bool.or_eq_true, Bool.and_eq_true, decide_eq_true_eq,
    beq_iff_eq]
  rcases Nat.lt_trichotomy a.createdAt b.createdAt with hc | hc | hc
  · exact Or.inl (Or.inl hc)
  · rcases lt_or_gt_of_ne h with hs | hs
    · exact Or.inl (Or.inr ⟨hc, hs⟩)
    · exact Or.inr (Or.inr ⟨hc.symm, hs⟩)
  · exact Or.inr (Or.inl hc)

/-- jobActiveOlder is irreflexive. -/
theorem jobActiveOlder_irrefl (a : Job) : jobActiveOlder a a = false := by
  simp [jobActiveOlder, jobOlder_irrefl]

/-- jobActiveOlder is transitive. -/
theorem jobActiveOlder_trans (a b c : Job)
    (h1 : jobActiveOlder a b = true) (h2 : jobActiveOlder b c = true) :
    jobActiveOlder a c = true := by
  simp only [jobActiveOlder, Bool.or_eq_true, Bool.and_eq_true, decide_eq_true_eq,
    beq_iff_eq] at h1 h2 ⊢
  rcases h1 with h1 | ⟨h1e, h1o⟩
  · rcases h2 with h2 | ⟨h2e, h2o⟩
    · exact Or.inl (by omega)
    · exact Or.inl (by omega)
  · rcases h2 with h2 | ⟨h2e, h2o⟩
    · exact Or.inl (by omega)
    · exact Or.inr ⟨by omega, jobOlder_trans _ _ _ h1o h2o⟩

/-- C9: running the migration repair on a store holding two or more
running scan/hash jobs keeps exactly one of them running, the oldest by
(created_at ASC, id ASC), and reclassifies every other one to retryable
with error_code MIGRATION_MUTEX_RECOVERY and the worker_id,
worker_heartbeat_at and lease_expires_at columns cleared. -/
theorem migration_mutex_repair
    (now : Nat) (store : List Job) (keep : Job)
    (hnodup : (store.map Job.id).Nodup)
    (hkeep : selectBy jobOlder (store.filter runningScanHash) = some keep)
    (_htwo : 2 ≤ (store.filter runningScanHash).length) :
    (keep ∈ store ∧ runningScanHash keep = true ∧
      ∀ j ∈ store, runningScanHash j = true → j.id ≠ keep.id →
        jobOlder keep j = true) ∧
    (∀ j ∈ store, runningScanHash j = true → j.id ≠ keep.id →
      mutexDemote now j ∈ migration0009RepairJobs now store ∧
      (mutexDemote now j).id = j.id ∧
      (mutexDemote now j).status = .retryable ∧
      (mutexDemote now j).errorCode = some "MIGRATION_MUTEX_RECOVERY" ∧
      (mutexDemote now j).workerId = none ∧
      (mutexDemote now j).workerHeartbeatAt = none ∧
      (mutexDemote now j).leaseExpiresAt = none) ∧
    keep ∈ migration0009RepairJobs now store ∧
    (∀ r ∈ migration0009RepairJobs now store, runningScanHash r = true →
      r.id = keep.id) := by
  have hkmem := selectBy_mem jobOlder _ _ hkeep
  have hkf := List.mem_filter.mp hkmem
  have hinj := List.inj_on_of_nodup_map hnodup
  have hmin := selectBy_min jobOlder jobOlder_irrefl jobOlder_trans _ _ hkeep
  have holdest : ∀ j ∈ store, runningScanHash j = true → j.id ≠ keep.id →
      jobOlder keep j = true := by
    intro j hj hrj hne
    have hz := hmin j (List.mem_filter.mpr ⟨hj, hrj⟩)
    rcases jobOlder_total keep j (fun hx => hne hx.symm) with h1 | h1
    · exact h1
    · rw [hz] at h1
      exact absurd h1 Bool.false_ne_true
  have hstage1 : resolveDuplicateRunningScanHashJobs now store =
      store.map fun j =>
        if runningScanHash j && j.id != keep.id then mutexDemote now j else j := by
    simp only [resolveDuplicateRunningScanHashJobs, hkeep]
  have hf1keep : (if runningScanHash keep && keep.id != keep.id then
      mutexDemote now keep else keep) = keep := by
    simp
  have hkeep1 : keep ∈ resolveDuplicateRunningScanHashJobs now store := by
    rw [hstage1]
    exact List.mem_map.mpr ⟨keep, hkf.1, hf1keep⟩
  have hstore1mem : ∀ x ∈ resolveDuplicateRunningScanHashJobs now store,
      pendingOrRunningScanHash x = true →
      x ∈ store ∧ (runningScanHash x = true → x.id = keep.id) := by
    intro x hx hpx
    rw [hstage1] at hx
    rcases List.mem_map.mp hx with ⟨j, hj, hfj⟩
    by_cases hc : (runningScanHash j && j.id != keep.id) = true
    · rw [if_pos hc] at hfj
      exfalso
      rw [← hfj] at hpx
      simp [pendingOrRunningScanHash, mutexDemote] at hpx
    · rw [if_neg hc] at hfj
      subst hfj
      refine ⟨hj, ?_⟩
      intro hrx
      have hb : (j.id != keep.id) = false := by
        by_contra hb2
        rw [Bool.not_eq_false] at hb2
        exact hc (by rw [hrx, hb2]; rfl)
      simpa using hb
  have hkeep1p : pendingOrRunningScanHash keep = true := by
    have hr := hkf.2
    simp only [runningScanHash, Bool.and_eq_true] at hr
    simp [pendingOrRunningScanHash, hr.1, hr.2]
  have hl2keep : keep ∈
      (resolveDuplicateRunningScanHashJobs now store).filter pendingOrRunningScanHash :=
    List.mem_filter.mpr ⟨hkeep1, hkeep1p⟩
  obtain ⟨m, hm⟩ : ∃ m, selectBy jobActiveOlder
      ((resolveDuplicateRunningScanHashJobs now store).filter
        pendingOrRunningScanHash) = some m := by
    cases hl : (resolveDuplicateRunningScanHashJobs now store).filter
        pendingOrRunningScanHash with
    | nil =>
      rw [hl] at hl2keep
      cases hl2keep
    | cons x xs => exact ⟨_, rfl⟩
  have hmeq : m = keep := by
    have hmmem := selectBy_mem _ _ _ hm
    have hmf := List.mem_filter.mp hmmem
    rcases hstore1mem m hmf.1 hmf.2 with ⟨hms, hmid⟩
    by_cases hrm : runningScanHash m = true
    · exact hinj hms hkf.1 (hmid hrm)
    · exfalso
      have hminm := selectBy_min jobActiveOlder jobActiveOlder_irrefl
        jobActiveOlder_trans _ _ hm keep hl2keep
      have hrank : statusRank m.status = 1 := by
        have hp := hmf.2
        simp only [pendingOrRunningScanHash, Bool.and_eq_true, Bool.or_eq_true] at hp
        rcases hp.2 with hp2 | hp2
        · rw [beq_iff_eq.mp hp2]
          rfl
        · exact absurd (by simp [runningScanHash, hp2, hp.1]) hrm
      have hrankk : statusRank keep.status = 0 := by
        have hr := hkf.2
        simp only [runningScanHash, Bool.and_eq_true] at hr
        rw [beq_iff_eq.mp hr.1]
        rfl
      have hlt : jobActiveOlder keep m = true := by
        simp only [jobActiveOlder, Bool.or_eq_true, decide_eq_true_eq]
        exact Or.inl (by omega)
      rw [hminm] at hlt
      exact absurd hlt Bool.false_ne_true
  subst hmeq
  have hstage2 : migration0009RepairJobs now store =
      (resolveDuplicateRunningScanHashJobs now store).map fun j =>
        if pendingOrRunningScanHash j && j.id != m.id then activeDemote now j else j := by
    simp only [migration0009RepairJobs, resolveDuplicatePendingOrRunningScanHashJobs, hm]
  refine ⟨⟨hkf.1, hkf.2, holdest⟩, ?_, ?_, ?_⟩
  · intro j hj hrj hne
    refine ⟨?_, rfl, rfl, rfl, rfl, rfl, rfl⟩
    have hc : (runningScanHash j && j.id != m.id) = true := by
      rw [hrj]
      simpa using hne
    have h1 : mutexDemote now j ∈ resolveDuplicateRunningScanHashJobs now store := by
      rw [hstage1]
      exact List.mem_map.mpr ⟨j, hj, if_pos hc⟩
    have hn : ¬ ((pendingOrRunningScanHash (mutexDemote now j) &&
        (mutexDemote now j).id != m.id) = true) := by
      simp [pendingOrRunningScanHash, mutexDemote]
    rw [hstage2]
    exact List.mem_map.mpr ⟨mutexDemote now j, h1, if_neg hn⟩
  · have hn : ¬ ((pendingOrRunningScanHash m && m.id != m.id) = true) := by
      simp
    rw [hstage2]
    exact List.mem_map.mpr ⟨m, hkeep1, if_neg hn⟩
  · intro r hr hrr
    rw [hstage2] at hr
    rcases List.mem_map.mp hr with ⟨x, hx1, hfx⟩
    by_cases hc : (pendingOrRunningScanHash x && x.id != m.id) = true
    · rw [if_pos hc] at hfx
      exfalso
      rw [← hfx] at hrr
      simp [runningScanHash, activeDemote] at hrr
    · rw [if_neg hc] at hfx
      subst hfx
      have hpr : pendingOrRunningScanHash x = true := by
        simp only [runningScanHash, Bool.and_eq_true] at hrr
        simp [pendingOrRunningScanHash, hrr.1, hrr.2]
      exact (hstore1mem x hx1 hpr).2 hrr

/-- C9 witness: with two running jobs (scan a created at 1, hash b created
at 2), the repair demotes b to retryable with MIGRATION_MUTEX_RECOVERY and
cleared worker columns. -/
theorem migration_mutex_repair_witness :
    mutexDemote 9 runJobB ∈ migration0009RepairJobs 9 [runJobA, runJobB] ∧
    (mutexDemote 9 runJobB).id = runJobB.id ∧
    (mutexDemote 9 runJobB).status = .retryable ∧
    (mutexDemote 9 runJobB).errorCode = some "MIGRATION_MUTEX_RECOVERY" ∧
    (mutexDemote 9 runJobB).workerId = none ∧
    (mutexDemote 9 runJobB).workerHeartbeatAt = none ∧
    (mutexDemote 9 runJobB).leaseExpiresAt = none :=
  (migration_mutex_repair 9 [runJobA, runJobB] runJobA (by decide) (by decide)
    (by decide)).2.1 runJobB (by decide) (by decide) (by decide)

/-! ## C7: duplicate-group cursor codec -/

/-- Every base64 character decodes back to its sextet value. -/
theorem base64CharValue_inverse : ∀ v, v < 64 → base64CharValue (base64Char v) = some v := by
  decide

/-- No base64 character is the padding byte. -/
theorem base64Char_notEq : ∀ v, v < 64 → (base64Char v == '=') = false := by decide

/-- No base64 character is Python whitespace. -/
theorem base64Char_notWs : ∀ v, v < 64 → isPySpace (base64Char v) = false := by decide

/-- Every base64 character is ASCII. -/
theorem base64Char_ascii : ∀ v, v < 64 → (base64Char v).toNat < 128 := by decide

/-- Sextet values of in-range bytes are in range. -/
theorem bytesToSextets_lt (bytes : List Nat) (h : ∀ b ∈ bytes, b < 256) :
    ∀ v ∈ bytesToSextets bytes, v < 64 := by
  induction bytes using bytesToSextets.induct with
  | case1 b1 b2 b3 rest ih =>
    have h1 := h b1 (by simp)
    have h2 := h b2 (by simp)
    have h3 := h b3 (by simp)
    intro v hv
    simp only [bytesToSextets, List.mem_cons] at hv
    rcases hv with rfl | rfl | rfl | rfl | hv
    · omega
    · omega
    · omega
    · omega
    · exact ih (fun b hb => h b (by simp [hb])) v hv
  | case2 b1 b2 =>
    have h1 := h b1 (by simp)
    have h2 := h b2 (by simp)
    intro v hv
    simp only [bytesToSextets, List.mem_cons, List.not_mem_nil, or_false] at hv
    rcases hv with rfl | rfl | rfl <;> omega
  | case3 b1 =>
    have h1 := h b1 (by simp)
    intro v hv
    simp only [bytesToSextets, List.mem_cons, List.not_mem_nil, or_false] at hv
    rcases hv with rfl | rfl <;> omega
  | case4 =>
    intro v hv
    simp [bytesToSextets] at hv

/-- Sextet decoding inverts sextet encoding on in-range bytes. -/
theorem sextetsToBytes_inverse (bytes : List Nat) (h : ∀ b ∈ bytes, b < 256) :
    sextetsToBytes (bytesToSextets bytes) = bytes := by
  induction bytes using bytesToSextets.induct with
  | case1 b1 b2 b3 rest ih =>
    have h1 := h b1 (by simp)
    have h2 := h b2 (by simp)
    have h3 := h b3 (by simp)
    simp only [bytesToSextets, sextetsToBytes]
    rw [ih (fun b hb => h b (by simp [hb]))]
    refine List.cons_eq_cons.mpr ⟨by omega, List.cons_eq_cons.mpr ⟨by omega,
      List.cons_eq_cons.mpr ⟨by omega, rfl⟩⟩⟩
  | case2 b1 b2 =>
    have h1 := h b1 (by simp)
    have h2 := h b2 (by simp)
    simp only [bytesToSextets, sextetsToBytes]
    refine List.cons_eq_cons.mpr ⟨by omega, List.cons_eq_cons.mpr ⟨by omega, rfl⟩⟩
  | case3 b1 =>
    have h1 := h b1 (by simp)
    simp only [bytesToSextets, sextetsToBytes]
    refine List.cons_eq_cons.mpr ⟨by omega, rfl⟩
  | case4 => rfl

/-- The sextet count is never one more than a multiple of four. -/
theorem bytesToSextets_length_mod (bytes : List Nat) :
    (bytesToSextets bytes).length % 4 ≠ 1 := by
  induction bytes using bytesToSextets.induct with
  | case1 b1 b2 b3 rest ih =>
    simp only [bytesToSextets, List.length_cons]
    omega
  | case2 b1 b2 => simp [bytesToSextets]
  | case3 b1 => simp [bytesToSextets]
  | case4 => simp [bytesToSextets]

/-- dropWhile is the identity when no element satisfies the predicate. -/
theorem dropWhile_eq_self_of_all {α : Type} (p : α → Bool) (l : List α)
    (h : ∀ c ∈ l, p c = false) : l.dropWhile p = l := by
  cases l with
  | nil => rfl
  | cons c cs => simp [List.dropWhile_cons, h c (by simp)]

/-- takeWhile passes over a prefix whose elements all satisfy the
predicate. -/
theorem takeWhile_append_of_all {α : Type} (p : α → Bool) (l t : List α)
    (h : ∀ c ∈ l, p c = true) : (l ++ t).takeWhile p = l ++ t.takeWhile p := by
  induction l with
  | nil => rfl
  | cons c cs ih =>
    rw [List.cons_append, List.takeWhile_cons, h c (by simp),
      ih (fun x hx => h x (by simp [hx]))]
    rfl

/-- takeWhile stops immediately on a replicate of a failing element. -/
theorem takeWhile_replicate_of_not {α : Type} (p : α → Bool) (k : Nat) (a : α)
    (h : p a = false) : (List.replicate k a).takeWhile p = [] := by
  cases k with
  | zero => rfl
  | succ n => simp [List.replicate, List.takeWhile_cons, h]

/-- dropWhile consumes a replicate of a passing element. -/
theorem dropWhile_replicate_append {α : Type} (p : α → Bool) (k : Nat) (a : α)
    (t : List α) (h : p a = true) :
    (List.replicate k a ++ t).dropWhile p = t.dropWhile p := by
  induction k with
  | zero => rfl
  | succ n ih => simp [List.replicate, List.dropWhile_cons, h, ih]

/-- Stripping the trailing padding recovers the padding-free prefix. -/
theorem stripTrailingEq_append_pad (l : List Char) (k : Nat)
    (h : ∀ c ∈ l, (c == '=') = false) :
    stripTrailingEq (l ++ List.replicate k '=') = l := by
  unfold stripTrailingEq
  rw [List.reverse_append, List.reverse_replicate,
    dropWhile_replicate_append _ _ _ _ (by simp),
    dropWhile_eq_self_of_all _ _ (fun c hc => h c (List.mem_reverse.mp hc)),
    List.reverse_reverse]

/-- filterMap undoes map when the functions compose to some. -/
theorem filterMap_map_of_all {α β : Type} (f : α → β) (g : β → Option α) (l : List α)
    (h : ∀ x ∈ l, g (f x) = some x) : (l.map f).filterMap g = l := by
  induction l with
  | nil => rfl
  | cons c cs ih =>
    simp [List.filterMap_cons, h c (by simp), ih (fun x hx => h x (by simp [hx]))]

/-- Python strip is the identity on whitespace-free text. -/
theorem pyStripChars_eq_self (l : List Char) (h : ∀ c ∈ l, isPySpace c = false) :
    pyStripChars l = l := by
  unfold pyStripChars
  rw [dropWhile_eq_self_of_all _ _ h,
    dropWhile_eq_self_of_all _ _ (fun c hc => h c (List.mem_reverse.mp hc)),
    List.reverse_reverse]

/-- The stripped base64 encoding is exactly the sextet characters. -/
theorem stripTrailingEq_b64EncodeBytes (bytes : List Nat) (h : ∀ b ∈ bytes, b < 256) :
    stripTrailingEq (b64EncodeBytes bytes) = (bytesToSextets bytes).map base64Char := by
  unfold b64EncodeBytes b64Pad
  exact stripTrailingEq_append_pad _ _ (by
    intro c hc
    rcases List.mem_map.mp hc with ⟨v, hv, rfl⟩
    exact base64Char_notEq v (bytesToSextets_lt bytes h v hv))

/-- Decoding the padded, stripped encoding recovers the bytes. -/
theorem b64_roundtrip (bytes : List Nat) (h : ∀ b ∈ bytes, b < 256) :
    b64DecodeLoose (stripTrailingEq (b64EncodeBytes bytes) ++
        List.replicate
          ((4 - (stripTrailingEq (b64EncodeBytes bytes)).length % 4) % 4) '=') =
      some bytes := by
  have hsex := bytesToSextets_lt bytes h
  rw [stripTrailingEq_b64EncodeBytes bytes h]
  unfold b64DecodeLoose
  rw [takeWhile_append_of_all _ _ _ (by
      intro c hc
      rcases List.mem_map.mp hc with ⟨v, hv, rfl⟩
      have := base64Char_notEq v (hsex v hv)
      simp only [bne, this, Bool.not_false]),
    takeWhile_replicate_of_not _ _ _ (by simp),
    List.append_nil,
    filterMap_map_of_all _ _ _ (fun v hv => base64CharValue_inverse v (hsex v hv))]
  rw [if_neg (by simpa using bytesToSextets_length_mod bytes)]
  rw [sextetsToBytes_inverse bytes h]

/-- ASCII decoding inverts the byte view of ASCII text. -/
theorem asciiDecodeBytes_map_toNat (chars : List Char) (h : ∀ c ∈ chars, c.toNat < 128) :
    asciiDecodeBytes (chars.map Char.toNat) = some chars := by
  unfold asciiDecodeBytes
  rw [if_pos (by
    rw [List.all_eq_true]
    intro b hb
    rcases List.mem_map.mp hb with ⟨c, hc, rfl⟩
    simpa using h c hc)]
  rw [List.map_map]
  congr 1
  rw [show Char.ofNat ∘ Char.toNat = fun c => Char.ofNat c.toNat from rfl]
  rw [List.map_congr_left (fun c _ => Char.ofNat_toNat c)]
  simp

/-- Digit characters for values below ten: digit class and code point. -/
theorem digitChar_isDigit (k : Nat) (h : k < 10) : isDigitChar (digitChar k) = true := by
  interval_cases k <;> decide

theorem digitVal_digitChar (k : Nat) (h : k < 10) : digitVal (digitChar k) = k := by
  interval_cases k <;> decide

theorem digitChar_ne_zero (k : Nat) (h1 : 1 ≤ k) (h2 : k < 10) : digitChar k ≠ '0' := by
  interval_cases k <;> decide

theorem digitChar_ascii (k : Nat) (h : k < 10) : (digitChar k).toNat < 128 := by
  interval_cases k <;> decide

/-- A digit character is not the minus sign. -/
theorem isDigitChar_ne_minus (c : Char) (h : isDigitChar c = true) : c ≠ '-' := by
  intro hc
  subst hc
  exact absurd h (by decide)

/-- The digit printer ignores its fuel once the fuel exceeds the value. -/
theorem natDigitsAux_congr (f1 : Nat) : ∀ f2 n, n < f1 → n < f2 →
    natDigitsAux f1 n = natDigitsAux f2 n := by
  induction f1 with
  | zero =>
    intro f2 n h1 _
    omega
  | succ f ih =>
    intro f2 n h1 h2
    cases f2 with
    | zero => omega
    | succ f2p =>
      simp only [natDigitsAux]
      by_cases h : n < 10
      · rw [if_pos h, if_pos h]
      · rw [if_neg h, if_neg h, ih f2p (n / 10) (by omega) (by omega)]

/-- Unfolding equation of the digit printer. -/
theorem natDigits_eq (n : Nat) :
    natDigits n =
      if n < 10 then [digitChar n] else natDigits (n / 10) ++ [digitChar (n % 10)] := by
  show natDigitsAux (n + 1) n = _
  simp only [natDigitsAux]
  by_cases h : n < 10
  · rw [if_pos h, if_pos h]
  · rw [if_neg h, if_neg h,
      natDigitsAux_congr n (n / 10 + 1) (n / 10) (by omega) (by omega)]
    rfl

/-- natDigits emits decimal digit characters only. -/
theorem natDigits_all_digit (n : Nat) : ∀ c ∈ natDigits n, isDigitChar c = true := by
  induction n using Nat.strong_induction_on with
  | _ n ih =>
    rw [natDigits_eq]
    by_cases h : n < 10
    · rw [if_pos h]
      intro c hc
      simp only [List.mem_singleton] at hc
      subst hc
      exact digitChar_isDigit n h
    · rw [if_neg h]
      intro c hc
      rcases List.mem_append.mp hc with hc2 | hc2
      · exact ih (n / 10) (by omega) c hc2
      · simp only [List.mem_singleton] at hc2
        subst hc2
        exact digitChar_isDigit (n % 10) (by omega)

/-- natDigits of a positive number starts with a nonzero digit. -/
theorem natDigits_head_nonzero (n : Nat) :
    1 ≤ n → ∃ c cs, natDigits n = c :: cs ∧ isDigitChar c = true ∧ c ≠ '0' := by
  induction n using Nat.strong_induction_on with
  | _ n ih =>
    intro hn
    rw [natDigits_eq]
    by_cases h : n < 10
    · rw [if_pos h]
      exact ⟨digitChar n, [], rfl, digitChar_isDigit n h, digitChar_ne_zero n hn h⟩
    · rw [if_neg h]
      obtain ⟨c, cs, hsplit, hdig, hzero⟩ := ih (n / 10) (by omega) (by omega)
      exact ⟨c, cs ++ [digitChar (n % 10)], by rw [hsplit]; rfl, hdig, hzero⟩

/-- The decimal fold of natDigits recovers the number. -/
theorem digitsFold_natDigits (n : Nat) :
    ∀ acc, (natDigits n).foldl (fun a c => a * 10 + digitVal c) acc =
      acc * 10 ^ (natDigits n).length + n := by
  induction n using Nat.strong_induction_on with
  | _ n ih =>
    intro acc
    rw [natDigits_eq]
    by_cases h : n < 10
    · rw [if_pos h]
      simp [digitVal_digitChar n h]
    · rw [if_neg h]
      rw [List.foldl_append, ih (n / 10) (by omega) acc]
      simp only [List.foldl_cons, List.foldl_nil]
      rw [digitVal_digitChar (n % 10) (by omega), List.length_append]
      have hdm : n / 10 * 10 + n % 10 = n := by omega
      calc (acc * 10 ^ (natDigits (n / 10)).length + n / 10) * 10 + n % 10
          = acc * (10 ^ (natDigits (n / 10)).length * 10) + (n / 10 * 10 + n % 10) := by
            ring
        _ = acc * 10 ^ ((natDigits (n / 10)).length + 1) + n := by
            rw [hdm, pow_succ]
        _ = acc * 10 ^ ((natDigits (n / 10)).length + [digitChar (n % 10)].length) + n :=
            rfl

/-- natDigits is never empty. -/
theorem natDigits_ne_nil (n : Nat) : natDigits n ≠ [] := by
  rw [natDigits_eq]
  split <;> simp

/-- Greedy digit parsing passes over a digit run and stops before a
non-digit. -/
theorem parseDigitsFrom_append (ds rest : List Char)
    (hds : ∀ c ∈ ds, isDigitChar c = true)
    (hrest : ∀ c, rest.head? = some c → isDigitChar c = false) :
    ∀ acc, parseDigitsFrom acc (ds ++ rest) =
      (ds.foldl (fun a c => a * 10 + digitVal c) acc, rest) := by
  induction ds with
  | nil =>
    intro acc
    cases rest with
    | nil => rfl
    | cons c r => simp [parseDigitsFrom, hrest c rfl]
  | cons c cs ih =>
    intro acc
    rw [List.cons_append,
      show parseDigitsFrom acc (c :: (cs ++ rest)) =
        parseDigitsFrom (acc * 10 + digitVal c) (cs ++ rest) from by
          simp [parseDigitsFrom, hds c (by simp)]]
    rw [ih (fun x hx => hds x (by simp [hx])) _]
    rfl

/-- JSON natural parsing inverts the decimal printer. -/
theorem parseJsonNat_natDigits (n : Nat) (rest : List Char)
    (hrest : ∀ c, rest.head? = some c → isDigitChar c = false) :
    parseJsonNat (natDigits n ++ rest) = some (n, rest) := by
  rcases Nat.eq_zero_or_pos n with rfl | hn
  · have h0 : natDigits 0 = ['0'] := by rw [natDigits_eq]; rfl
    rw [h0]
    rfl
  · obtain ⟨c, cs, hsplit, hdig, hzero⟩ := natDigits_head_nonzero n hn
    rw [hsplit, List.cons_append,
      show parseJsonNat (c :: (cs ++ rest)) =
        some (parseDigitsFrom (digitVal c) (cs ++ rest)) from by
          simp [parseJsonNat, hzero, hdig]]
    rw [parseDigitsFrom_append cs rest
      (fun x hx => natDigits_all_digit n x (by rw [hsplit]; simp [hx])) hrest _]
    have hfold := digitsFold_natDigits n 0
    rw [hsplit] at hfold
    simp only [List.foldl_cons, Nat.zero_mul, Nat.zero_add] at hfold
    rw [hfold]

/-- JSON integer parsing inverts the printer on nonnegative values. -/
theorem parseJsonInt_intDigits (n : Int) (hn : 0 ≤ n) (rest : List Char)
    (hrest : ∀ c, rest.head? = some c → isDigitChar c = false) :
    parseJsonInt (intDigits n ++ rest) = some (n, rest) := by
  rw [intDigits, if_neg (by omega)]
  obtain ⟨c, cs, heq⟩ : ∃ c cs, natDigits n.toNat = c :: cs := by
    cases hx : natDigits n.toNat with
    | nil => exact absurd hx (natDigits_ne_nil _)
    | cons a b => exact ⟨a, b, rfl⟩
  · have hdig : isDigitChar c = true :=
      natDigits_all_digit n.toNat c (by rw [heq]; simp)
    have key : parseJsonInt (natDigits n.toNat ++ rest) =
        match parseJsonNat (natDigits n.toNat ++ rest) with
        | some (m, r) => some ((m : Int), r)
        | none => none := by
      rw [heq, List.cons_append]
      simp [parseJsonInt, isDigitChar_ne_minus c hdig]
    rw [key, parseJsonNat_natDigits n.toNat rest hrest]
    simp [Int.toNat_of_nonneg hn]

/-- skipWs is the identity when the head is not whitespace. -/
theorem skipWs_cons_of_not (c : Char) (l : List Char) (h : isJsonWs c = false) :
    skipWs (c :: l) = c :: l := by
  simp [skipWs, List.dropWhile_cons, h]

/-- parseStringBody consumes up to the closing quote. -/
theorem parseStringBody_append (s rest : List Char)
    (h : ∀ c ∈ s, (c = '"' → False) ∧ (c = '\\' → False)) :
    parseStringBody (s ++ '"' :: rest) = some (s, rest) := by
  induction s with
  | nil => rfl
  | cons c cs ih =>
    rw [List.cons_append]
    simp only [parseStringBody]
    rw [if_neg (h c (by simp)).1, if_neg (h c (by simp)).2,
      ih (fun x hx => h x (by simp [hx]))]

/-- A digit character differs from the JSON dispatch characters. -/
theorem isDigitChar_ne_dispatch (c : Char) (h : isDigitChar c = true) :
    c ≠ '"' ∧ c ≠ 't' ∧ c ≠ 'f' ∧ c ≠ 'n' := by
  refine ⟨fun hc => absurd (hc ▸ h) (by decide), fun hc => absurd (hc ▸ h) (by decide),
    fun hc => absurd (hc ▸ h) (by decide), fun hc => absurd (hc ▸ h) (by decide)⟩

/-- A take of a cons list never equals a list with a different head. -/
theorem take_cons_ne {c : Char} (xs : List Char) (k : Nat) {d : Char} (ts : List Char)
    (hne : c ≠ d) : ¬ ((c :: xs).take (k + 1) = d :: ts) := by
  intro hx
  rw [List.take_succ_cons] at hx
  exact hne (List.cons.inj hx).1

/-- parseScalar on a quoted string. -/
theorem parseScalar_jstr (s rest : List Char)
    (h : ∀ c ∈ s, (c = '"' → False) ∧ (c = '\\' → False)) :
    parseScalar (jstr s ++ rest) = some (.str s, rest) := by
  have hshape : jstr s ++ rest = '"' :: (s ++ '"' :: rest) := by
    simp [jstr]
  rw [hshape]
  simp only [parseScalar]
  simp only [if_true]
  rw [parseStringBody_append s rest h]

/-- parseScalar on a printed nonnegative integer. -/
theorem parseScalar_intDigits (n : Int) (hn : 0 ≤ n) (rest : List Char)
    (hrest : ∀ c, rest.head? = some c → isDigitChar c = false) :
    parseScalar (intDigits n ++ rest) = some (.int n, rest) := by
  have hid : intDigits n = natDigits n.toNat := by
    rw [intDigits, if_neg (by omega)]
  obtain ⟨c, cs, heq⟩ : ∃ c cs, natDigits n.toNat = c :: cs := by
    cases hx : natDigits n.toNat with
    | nil => exact absurd hx (natDigits_ne_nil _)
    | cons a b => exact ⟨a, b, rfl⟩
  have hdig : isDigitChar c = true :=
    natDigits_all_digit n.toNat c (by rw [heq]; simp)
  obtain ⟨hq, ht, hf, hn2⟩ := isDigitChar_ne_dispatch c hdig
  have key : parseScalar (natDigits n.toNat ++ rest) =
      match parseJsonInt (natDigits n.toNat ++ rest) with
      | some (m, r) => some (.int m, r)
      | none => none := by
    rw [heq, List.cons_append]
    simp only [parseScalar]
    rw [if_neg hq,
      if_neg (take_cons_ne (cs ++ rest) 3 _ ht),
      if_neg (take_cons_ne (cs ++ rest) 4 _ hf),
      if_neg (take_cons_ne (cs ++ rest) 3 _ hn2)]
  rw [hid, key, ← hid, parseJsonInt_intDigits n hn rest hrest]

/-- parseMember on a canonical key: value member. -/
theorem parseMember_canonical (key : List Char) (c0 : Char) (t : List Char)
    (v : JsonScalar) (rest : List Char)
    (hkey : ∀ c ∈ key, (c = '"' → False) ∧ (c = '\\' → False))
    (hc0 : isJsonWs c0 = false)
    (hvp : parseScalar ((c0 :: t) ++ rest) = some (v, rest)) :
    parseMember (jstr key ++ [':'] ++ (c0 :: t) ++ rest) = some ((key, v), rest) := by
  have hshape : jstr key ++ [':'] ++ (c0 :: t) ++ rest =
      '"' :: (key ++ '"' :: ':' :: (c0 :: (t ++ rest))) := by
    simp [jstr]
  have hvp2 : parseScalar (c0 :: (t ++ rest)) = some (v, rest) := by
    rw [← List.cons_append]
    exact hvp
  rw [hshape]
  simp only [parseMember,
    skipWs_cons_of_not '"' (key ++ '"' :: ':' :: (c0 :: (t ++ rest))) (by decide),
    parseStringBody_append key (':' :: (c0 :: (t ++ rest))) hkey,
    skipWs_cons_of_not ':' (c0 :: (t ++ rest)) (by decide),
    skipWs_cons_of_not c0 (t ++ rest) hc0,
    hvp2, if_true]

/-- parseMembers consumes a canonical member chain and the closing brace. -/
theorem parseMembers_memberChain (items : List ((List Char × List Char) × JsonScalar)) :
    ∀ fuel, items.length ≤ fuel → items ≠ [] →
    (∀ it ∈ items,
      (∀ c ∈ it.1.1, (c = '"' → False) ∧ (c = '\\' → False)) ∧
      (∃ c0 t, it.1.2 = c0 :: t ∧ isJsonWs c0 = false) ∧
      (∀ rest, (∀ c, rest.head? = some c → isDigitChar c = false) →
        parseScalar (it.1.2 ++ rest) = some (it.2, rest))) →
    parseMembers fuel (memberChain (items.map Prod.fst)) =
      some (items.map (fun it => (it.1.1, it.2)), []) := by
  induction items with
  | nil =>
    intro fuel _ hne _
    exact absurd rfl hne
  | cons it its ih =>
    intro fuel hfuel hne hok
    cases fuel with
    | zero => simp at hfuel
    | succ f =>
      obtain ⟨hkey, ⟨c0, t, hvc, hc0⟩, hvp⟩ := hok it (by simp)
      cases its with
      | nil =>
        have hchain : memberChain ((it :: []).map Prod.fst) =
            jstr it.1.1 ++ [':'] ++ (c0 :: t) ++ [rcurl] := by
          simp only [List.map_cons, List.map_nil, memberChain, hvc]
        have hmem := parseMember_canonical it.1.1 c0 t it.2 [rcurl] hkey hc0
          (by rw [← hvc]; exact hvp [rcurl] (by intro c hc; cases hc; decide))
        simp only [parseMembers, hchain, hmem,
          skipWs_cons_of_not rcurl [] (by decide)]
        simp
        exact fun h => absurd h (by decide)
      | cons it2 its2 =>
        have hchain : memberChain ((it :: it2 :: its2).map Prod.fst) =
            jstr it.1.1 ++ [':'] ++ (c0 :: t) ++
              (',' :: memberChain ((it2 :: its2).map Prod.fst)) := by
          simp only [List.map_cons, memberChain, hvc]
          simp [List.append_assoc]
        have hmem := parseMember_canonical it.1.1 c0 t it.2
          (',' :: memberChain ((it2 :: its2).map Prod.fst)) hkey hc0
          (by
            rw [← hvc]
            exact hvp (',' :: memberChain ((it2 :: its2).map Prod.fst))
              (by intro c hc; cases hc; decide))
        simp only [parseMembers, hchain, hmem,
          skipWs_cons_of_not ',' (memberChain ((it2 :: its2).map Prod.fst)) (by decide)]
        simp only [if_true]
        rw [ih f (by simpa using hfuel) (by simp) (fun x hx => hok x (by simp [hx]))]
        rfl

/-- A digit character is not JSON whitespace. -/
theorem isDigitChar_not_ws (c : Char) (h : isDigitChar c = true) : isJsonWs c = false := by
  by_contra hb
  rw [Bool.not_eq_false] at hb
  simp only [isJsonWs, Bool.or_eq_true, beq_iff_eq] at hb
  rcases hb with ((rfl | rfl) | rfl) | rfl <;> exact absurd h (by decide)

/-- The canonical payload is the opening brace plus a four-member chain. -/
theorem jsonDumpGroupCursor_eq (g : GroupCursor) :
    jsonDumpGroupCursor g = lcurl ::
      memberChain [("content_hash_hex".data, jstr g.contentHashHex),
        ("file_count".data, intDigits g.fileCount),
        ("hash_algorithm".data, jstr (hashAlgorithmValue g.hashAlgorithm).data),
        ("total_size_bytes".data, intDigits g.totalSizeBytes)] := by
  simp [jsonDumpGroupCursor, memberChain, List.append_assoc]

/-- Any canonical member chain starts with a quote. -/
theorem memberChain_cons_head (k vc : List Char)
    (rest : List (List Char × List Char)) :
    ∃ ttail, memberChain ((k, vc) :: rest) = '"' :: ttail := by
  cases rest with
  | nil => exact ⟨k ++ '"' :: ':' :: (vc ++ [rcurl]), by simp [memberChain, jstr]⟩
  | cons h2 t2 =>
    exact ⟨k ++ '"' :: ':' :: (vc ++ ',' :: memberChain (h2 :: t2)),
      by simp [memberChain, jstr]⟩

/-- The printed integer of a nonnegative value starts with a digit. -/
theorem intDigits_head_digit (n : Int) (hn : 0 ≤ n) :
    ∃ c t, intDigits n = c :: t ∧ isDigitChar c = true := by
  rw [intDigits, if_neg (by omega)]
  cases hx : natDigits n.toNat with
  | nil => exact absurd hx (natDigits_ne_nil _)
  | cons a b =>
    exact ⟨a, b, rfl, natDigits_all_digit n.toNat a (by rw [hx]; simp)⟩

/-- parseCursorPayload on the canonical dump yields the four members. -/
theorem parseCursorPayload_dump (g : GroupCursor)
    (hhexq : ∀ c ∈ g.contentHashHex, (c = '"' → False) ∧ (c = '\\' → False))
    (halgq : ∀ c ∈ (hashAlgorithmValue g.hashAlgorithm).data,
      (c = '"' → False) ∧ (c = '\\' → False))
    (hfc : 0 ≤ g.fileCount) (hts : 0 ≤ g.totalSizeBytes) :
    parseCursorPayload (jsonDumpGroupCursor g) =
      some [("content_hash_hex".data, .str g.contentHashHex),
        ("file_count".data, .int g.fileCount),
        ("hash_algorithm".data, .str (hashAlgorithmValue g.hashAlgorithm).data),
        ("total_size_bytes".data, .int g.totalSizeBytes)] := by
  rw [jsonDumpGroupCursor_eq]
  obtain ⟨T, hT⟩ := memberChain_cons_head "content_hash_hex".data (jstr g.contentHashHex)
    [("file_count".data, intDigits g.fileCount),
      ("hash_algorithm".data, jstr (hashAlgorithmValue g.hashAlgorithm).data),
      ("total_size_bytes".data, intDigits g.totalSizeBytes)]
  have hparse := parseMembers_memberChain
    [(("content_hash_hex".data, jstr g.contentHashHex), .str g.contentHashHex),
      (("file_count".data, intDigits g.fileCount), .int g.fileCount),
      (("hash_algorithm".data, jstr (hashAlgorithmValue g.hashAlgorithm).data),
        .str (hashAlgorithmValue g.hashAlgorithm).data),
      (("total_size_bytes".data, intDigits g.totalSizeBytes), .int g.totalSizeBytes)]
    ((memberChain [("content_hash_hex".data, jstr g.contentHashHex),
        ("file_count".data, intDigits g.fileCount),
        ("hash_algorithm".data, jstr (hashAlgorithmValue g.hashAlgorithm).data),
        ("total_size_bytes".data, intDigits g.totalSizeBytes)]).length + 1)
    (by
      simp [memberChain, jstr, List.length_append])
    (by simp)
    (by
      intro it hit
      simp only [List.mem_cons, List.not_mem_nil, or_false] at hit
      rcases hit with rfl | rfl | rfl | rfl
      · refine ⟨?_, ⟨'"', g.contentHashHex ++ ['"'], rfl, by decide⟩, ?_⟩
        · exact (by decide :
            ∀ c ∈ "content_hash_hex".data, (c = '"' → False) ∧ (c = '\\' → False))
        · intro rest _
          exact parseScalar_jstr g.contentHashHex rest hhexq
      · obtain ⟨c, t, hct, hdig⟩ := intDigits_head_digit g.fileCount hfc
        refine ⟨?_, ⟨c, t, hct, isDigitChar_not_ws c hdig⟩, ?_⟩
        · exact (by decide :
            ∀ c ∈ "file_count".data, (c = '"' → False) ∧ (c = '\\' → False))
        · intro rest hrest
          exact parseScalar_intDigits g.fileCount hfc rest hrest
      · refine ⟨?_,
          ⟨'"', (hashAlgorithmValue g.hashAlgorithm).data ++ ['"'], rfl, by decide⟩, ?_⟩
        · exact (by decide :
            ∀ c ∈ "hash_algorithm".data, (c = '"' → False) ∧ (c = '\\' → False))
        · intro rest _
          exact parseScalar_jstr (hashAlgorithmValue g.hashAlgorithm).data rest halgq
      · obtain ⟨c, t, hct, hdig⟩ := intDigits_head_digit g.totalSizeBytes hts
        refine ⟨?_, ⟨c, t, hct, isDigitChar_not_ws c hdig⟩, ?_⟩
        · exact (by decide :
            ∀ c ∈ "total_size_bytes".data, (c = '"' → False) ∧ (c = '\\' → False))
        · intro rest hrest
          exact parseScalar_intDigits g.totalSizeBytes hts rest hrest)
  have hparse2 : parseMembers (('"' :: T).length + 1) ('"' :: T) =
      some ([("content_hash_hex".data, .str g.contentHashHex),
        ("file_count".data, .int g.fileCount),
        ("hash_algorithm".data, .str (hashAlgorithmValue g.hashAlgorithm).data),
        ("total_size_bytes".data, .int g.totalSizeBytes)], []) := by
    rw [← hT]
    exact hparse
  simp only [parseCursorPayload, hT,
    skipWs_cons_of_not lcurl ('"' :: T) (by decide),
    skipWs_cons_of_not '"' T (by decide),
    eq_self_iff_true, if_true]
  rw [if_neg (by decide : ¬ ('"' = rcurl)), hparse2]
  rfl

/-- Nonempty byte lists yield nonempty sextet lists. -/
theorem bytesToSextets_ne_nil (bytes : List Nat) (h : bytes ≠ []) :
    bytesToSextets bytes ≠ [] := by
  rcases bytes with _ | ⟨b1, t⟩
  · exact absurd rfl h
  rcases t with _ | ⟨b2, t2⟩
  · simp [bytesToSextets]
  rcases t2 with _ | ⟨b3, rest⟩
  · simp [bytesToSextets]
  · simp [bytesToSextets]

/-- ASCII lowering is the identity on lists without uppercase letters. -/
theorem asciiLowerList_eq_self (l : List Char)
    (h : ∀ c ∈ l, ¬ (65 ≤ c.toNat ∧ c.toNat ≤ 90)) : asciiLowerList l = l := by
  induction l with
  | nil => rfl
  | cons c t ih =>
    unfold asciiLowerList at *
    simp only [List.map_cons]
    rw [show asciiLowerChar c = c from by
      unfold asciiLowerChar
      rw [if_neg (h c (by simp))]]
    rw [ih (fun x hx => h x (by simp [hx]))]

/-- Lower-case hex strings of even length pass bytes.fromhex validation. -/
theorem pyFromHexOk_of_charset (l : List Char)
    (h : ∀ c ∈ l, (48 ≤ c.toNat ∧ c.toNat ≤ 57) ∨ (97 ≤ c.toNat ∧ c.toNat ≤ 102))
    (hmod : l.length % 2 = 0) : pyFromHexOk l = true := by
  unfold pyFromHexOk
  have hfil : l.filter (fun c => !(c == ' ')) = l := by
    rw [List.filter_eq_self]
    intro c hc
    have hne : c ≠ ' ' := by
      intro hEq
      subst hEq
      rcases h _ hc with ⟨h1, h2⟩ | ⟨h1, h2⟩ <;> revert h1 h2 <;> decide
    simp [hne]
  rw [hfil]
  simp only [Bool.and_eq_true, beq_iff_eq, List.all_eq_true]
  refine ⟨hmod, ?_⟩
  intro c hc
  simp only [isHexDigitChar, Bool.or_eq_true, Bool.and_eq_true, decide_eq_true_eq]
  rcases h c hc with ⟨h1, h2⟩ | ⟨h1, h2⟩
  · exact Or.inl (Or.inl ⟨h1, h2⟩)
  · exact Or.inl (Or.inr ⟨h1, h2⟩)

/-- Every character of the canonical cursor payload is ASCII. -/
theorem jsonDumpGroupCursor_ascii (g : GroupCursor)
    (hhex : ∀ c ∈ g.contentHashHex, c.toNat < 128)
    (hfc : 0 ≤ g.fileCount) (hts : 0 ≤ g.totalSizeBytes) :
    ∀ c ∈ jsonDumpGroupCursor g, c.toNat < 128 := by
  have hdig : ∀ n : Nat, ∀ c ∈ natDigits n, c.toNat < 128 := by
    intro n c hc
    have hd := natDigits_all_digit n c hc
    simp only [isDigitChar, Bool.and_eq_true, decide_eq_true_eq] at hd
    omega
  have hint : ∀ n : Int, 0 ≤ n → ∀ c ∈ intDigits n, c.toNat < 128 := by
    intro n hn c hc
    unfold intDigits at hc
    rw [if_neg (by omega)] at hc
    exact hdig _ c hc
  have halgmem : ∀ c ∈ (hashAlgorithmValue g.hashAlgorithm).data, c.toNat < 128 := by
    cases g.hashAlgorithm <;> decide
  intro c hc
  unfold jsonDumpGroupCursor jstr at hc
  repeat' rcases List.mem_append.mp hc with hc | hc
  all_goals try (rcases List.mem_cons.mp hc with rfl | hc)
  all_goals first
    | decide
    | exact hhex c hc
    | exact halgmem c hc
    | exact hint _ hfc c hc
    | exact hint _ hts c hc
    | exact (by decide : ∀ x ∈ "content_hash_hex".data, x.toNat < 128) c hc
    | exact (by decide : ∀ x ∈ "file_count".data, x.toNat < 128) c hc
    | exact (by decide : ∀ x ∈ "hash_algorithm".data, x.toNat < 128) c hc
    | exact (by decide : ∀ x ∈ "total_size_bytes".data, x.toNat < 128) c hc
    | exact absurd hc (List.not_mem_nil c)

/-- Step-by-step reduction of _decode_group_cursor on a cursor whose
pipeline stages are all known to succeed. -/
theorem decodeGroupCursor_eq_of (cursor : List Char) (bytes : List Nat)
    (chars : List Char) (fields : List (List Char × JsonScalar))
    (fcV tsV algV hexV : JsonScalar) (fc ts : Int) (alg : HashAlgorithm)
    (h0 : pyStripChars cursor = cursor)
    (h1 : cursor ≠ [])
    (h2 : cursor.any (fun c => decide (128 ≤ c.toNat)) = false)
    (h3 : b64DecodeLoose (cursor ++ List.replicate ((4 - cursor.length % 4) % 4) '=') =
      some bytes)
    (h4 : asciiDecodeBytes bytes = some chars)
    (h5 : parseCursorPayload chars = some fields)
    (h6 : lookupLast fields "file_count".data = some fcV)
    (h7 : lookupLast fields "total_size_bytes".data = some tsV)
    (h8 : lookupLast fields "hash_algorithm".data = some algV)
    (h9 : lookupLast fields "content_hash_hex".data = some hexV)
    (h10 : pyInt fcV = some fc) (h11 : pyInt tsV = some ts)
    (h12 : parseHashAlgorithm (asciiLowerList (pyStr algV)) = some alg)
    (h13 : ¬ (fc < 2 ∨ ts < 1))
    (h14 : (asciiLowerList (pyStr hexV)).length = expectedHashHexLength alg)
    (h15 : (asciiLowerList (pyStr hexV)).length % 2 = 0)
    (h16 : pyFromHexOk (asciiLowerList (pyStr hexV)) = true) :
    decodeGroupCursor cursor = some ⟨fc, ts, alg, asciiLowerList (pyStr hexV)⟩ := by
  unfold decodeGroupCursor
  rw [h0]
  simp only []
  rw [if_neg h1]
  simp only [h2, Bool.false_eq_true, if_false]
  simp only [h3, h4, h5, h6, h7, h8, h9, h10, h11, h12]
  rw [if_neg h13]
  rw [if_neg (by simp [h14])]
  rw [if_neg (by simp [h15])]
  rw [if_neg (by simp [h16])]

/-- C7: the duplicate-group cursor codec round-trips: for every group
snapshot with file_count at least 2, total_size_bytes at least 1, a
supported hash algorithm and a 64-character lower-case hex digest,
_decode_group_cursor inverts _encode_group_cursor exactly; and every
cursor the decoder accepts satisfies the decoder's bounds (file_count
at least 2, total_size_bytes at least 1, hex of the expected length
valid for bytes.fromhex) — all other cursors raise ValueError (none). -/
theorem groupCursor_roundtrip_and_validation :
    (∀ fc ts : Int, ∀ alg : HashAlgorithm, ∀ hex : List Char,
      2 ≤ fc → 1 ≤ ts →
      (∀ c ∈ hex, (48 ≤ c.toNat ∧ c.toNat ≤ 57) ∨ (97 ≤ c.toNat ∧ c.toNat ≤ 102)) →
      hex.length = 64 →
      decodeGroupCursor (encodeGroupCursor ⟨fc, ts, alg, hex⟩) =
        some ⟨fc, ts, alg, hex⟩) ∧
    (∀ cursor : List Char, ∀ g : GroupCursor,
      decodeGroupCursor cursor = some g →
      2 ≤ g.fileCount ∧ 1 ≤ g.totalSizeBytes ∧
        g.contentHashHex.length = expectedHashHexLength g.hashAlgorithm ∧
        pyFromHexOk g.contentHashHex = true) := by
  constructor
  · intro fc ts alg hex hfc2 hts1 hcs hlen
    have hhexa : ∀ c ∈ (GroupCursor.mk fc ts alg hex).contentHashHex, c.toNat < 128 := by
      intro c hc
      rcases hcs c hc with ⟨h1, h2⟩ | ⟨h1, h2⟩ <;> omega
    have hascii := jsonDumpGroupCursor_ascii ⟨fc, ts, alg, hex⟩ hhexa
      ((by omega : (0:Int) ≤ fc)) ((by omega : (0:Int) ≤ ts))
    have hbytes : ∀ b ∈ (jsonDumpGroupCursor ⟨fc, ts, alg, hex⟩).map Char.toNat,
        b < 256 := by
      intro b hb
      rcases List.mem_map.mp hb with ⟨c, hc, rfl⟩
      exact Nat.lt_trans (hascii c hc) (by omega)
    have hencM : encodeGroupCursor ⟨fc, ts, alg, hex⟩ =
        (bytesToSextets ((jsonDumpGroupCursor ⟨fc, ts, alg, hex⟩).map Char.toNat)).map
          base64Char := by
      unfold encodeGroupCursor
      exact stripTrailingEq_b64EncodeBytes _ hbytes
    have hsexlt := bytesToSextets_lt _ hbytes
    have hMws : ∀ c ∈ (bytesToSextets
        ((jsonDumpGroupCursor ⟨fc, ts, alg, hex⟩).map Char.toNat)).map base64Char,
        isPySpace c = false := by
      intro c hc
      rcases List.mem_map.mp hc with ⟨v, hv, rfl⟩
      exact base64Char_notWs v (hsexlt v hv)
    have hdumpne : jsonDumpGroupCursor ⟨fc, ts, alg, hex⟩ ≠ [] := by
      intro hEq
      have h2 := congrArg List.length hEq
      simp only [jsonDumpGroupCursor, jstr, List.length_append, List.length_cons,
        List.length_singleton, List.length_nil] at h2
      omega
    have hbytesne : (jsonDumpGroupCursor ⟨fc, ts, alg, hex⟩).map Char.toNat ≠ [] := by
      simpa using hdumpne
    have hMne : (bytesToSextets
        ((jsonDumpGroupCursor ⟨fc, ts, alg, hex⟩).map Char.toNat)).map base64Char ≠ [] := by
      simpa using bytesToSextets_ne_nil _ hbytesne
    have hany : ((bytesToSextets
        ((jsonDumpGroupCursor ⟨fc, ts, alg, hex⟩).map Char.toNat)).map base64Char).any
        (fun c => decide (128 ≤ c.toNat)) = false := by
      rw [List.any_eq_false]
      intro c hc
      rcases List.mem_map.mp hc with ⟨v, hv, rfl⟩
      have h128 := base64Char_ascii v (hsexlt v hv)
      simp only [decide_eq_true_eq, decide_eq_false_iff_not]
      omega
    have hdec : b64DecodeLoose
        ((bytesToSextets ((jsonDumpGroupCursor ⟨fc, ts, alg, hex⟩).map Char.toNat)).map
            base64Char ++
          List.replicate
            ((4 - ((bytesToSextets
              ((jsonDumpGroupCursor ⟨fc, ts, alg, hex⟩).map Char.toNat)).map
                base64Char).length % 4) % 4) '=') =
        some ((jsonDumpGroupCursor ⟨fc, ts, alg, hex⟩).map Char.toNat) := by
      have hrt := b64_roundtrip _ hbytes
      rwa [stripTrailingEq_b64EncodeBytes _ hbytes] at hrt
    have hhexq : ∀ c ∈ (GroupCursor.mk fc ts alg hex).contentHashHex,
        (c = '"' → False) ∧ (c = '\\' → False) := by
      intro c hc
      rcases hcs c hc with ⟨h1, h2⟩ | ⟨h1, h2⟩ <;>
        exact ⟨fun hEq => by subst hEq; revert h1 h2; decide,
          fun hEq => by subst hEq; revert h1 h2; decide⟩
    have halgq : ∀ c ∈ (hashAlgorithmValue
        (GroupCursor.mk fc ts alg hex).hashAlgorithm).data,
        (c = '"' → False) ∧ (c = '\\' → False) := by
      cases alg
      · exact (by decide : ∀ c ∈ (hashAlgorithmValue HashAlgorithm.blake3).data,
          (c = '"' → False) ∧ (c = '\\' → False))
      · exact (by decide : ∀ c ∈ (hashAlgorithmValue HashAlgorithm.sha256).data,
          (c = '"' → False) ∧ (c = '\\' → False))
    have hpayload := parseCursorPayload_dump ⟨fc, ts, alg, hex⟩ hhexq halgq
      ((by omega : (0:Int) ≤ fc)) ((by omega : (0:Int) ≤ ts))
    have hpystr : pyStr (JsonScalar.str hex) = hex := rfl
    have halgp : parseHashAlgorithm (asciiLowerList
        (pyStr (JsonScalar.str (hashAlgorithmValue alg).data))) = some alg := by
      cases alg <;> rfl
    have hlow : asciiLowerList hex = hex := by
      refine asciiLowerList_eq_self hex ?_
      intro c hc
      rcases hcs c hc with ⟨h1, h2⟩ | ⟨h1, h2⟩ <;> omega
    have hexp : expectedHashHexLength alg = 64 := by cases alg <;> rfl
    have hok : pyFromHexOk hex = true :=
      pyFromHexOk_of_charset hex hcs (by omega)
    rw [hencM]
    have hmain := decodeGroupCursor_eq_of
      ((bytesToSextets ((jsonDumpGroupCursor ⟨fc, ts, alg, hex⟩).map Char.toNat)).map
        base64Char)
      ((jsonDumpGroupCursor ⟨fc, ts, alg, hex⟩).map Char.toNat)
      (jsonDumpGroupCursor ⟨fc, ts, alg, hex⟩)
      [("content_hash_hex".data, JsonScalar.str hex),
        ("file_count".data, JsonScalar.int fc),
        ("hash_algorithm".data, JsonScalar.str (hashAlgorithmValue alg).data),
        ("total_size_bytes".data, JsonScalar.int ts)]
      (JsonScalar.int fc) (JsonScalar.int ts)
      (JsonScalar.str (hashAlgorithmValue alg).data) (JsonScalar.str hex)
      fc ts alg
      (pyStripChars_eq_self _ hMws)
      hMne hany hdec
      (asciiDecodeBytes_map_toNat _ hascii)
      hpayload
      rfl rfl rfl rfl
      rfl rfl
      halgp
      (by omega)
      (by rw [hpystr, hlow, hlen, hexp])
      (by rw [hpystr, hlow, hlen])
      (by rw [hpystr, hlow]; exact hok)
    rw [hpystr, hlow] at hmain
    exact hmain
  · intro cursor g h
    unfold decodeGroupCursor at h
    dsimp only [] at h
    repeat' split at h
    all_goals try exact Option.noConfusion h
    rename_i hcond hlen2 hmod hok2
    injection h with h2
    subst h2
    dsimp only
    refine ⟨by omega, by omega, not_not.mp hlen2, ?_⟩
    revert hok2
    cases pyFromHexOk (asciiLowerList _) <;> simp

/-- C7 witness: a concrete sha256 group cursor round-trips. -/
theorem groupCursor_roundtrip_and_validation_witness :
    decodeGroupCursor (encodeGroupCursor ⟨2, 1, .sha256, List.replicate 64 'a'⟩) =
      some ⟨2, 1, .sha256, List.replicate 64 'a'⟩ :=
  groupCursor_roundtrip_and_validation.1 2 1 .sha256 (List.replicate 64 'a')
    (by decide) (by decide) (by decide) (by decide)
